import Mathlib

/-!
Verification of the core data-processing algorithms of the
`apple-store-scrape` repository against its natural-language specification.

The Python sources are shallowly embedded:

* pandas rows (`dict`-shaped records) become association lists of
  `String × Cell`, where `Cell` models the Python/pandas scalar values that
  occur in this pipeline (strings, numbers, `NaN`, `None`);
* Python numbers (ints and floats) are modelled as exact rationals `ℚ`;
* the concrete regular expressions used by the sources are implemented as
  executable searches over `List Char` that realise Python `re` semantics
  (leftmost match, alternatives tried in order, greedy quantifiers) for
  exactly the patterns appearing in the sources;
* all definitions are executable structural recursions so that concrete
  runs can be checked by `decide` / `rfl`.

Character classes (`\d`, `\s`, `\w`, `[a-zA-Z]`) are realised over ASCII;
the product texts processed by these patterns are ASCII (Chinese product
names contain no ASCII letters/digits and are unaffected by the patterns
involved in the claims).
-/

namespace AppleScrape

/-! ## Python string primitives -/

/-- ASCII decimal digit, the relevant fragment of Python regex `\d`. -/
def pyIsDigitChar (c : Char) : Bool :=
  decide (48 ≤ c.toNat) && decide (c.toNat ≤ 57)

/-- Python regex `\s` on ASCII: space, tab, newline, carriage return,
vertical tab, form feed. -/
def pyIsSpaceChar (c : Char) : Bool :=
  c = ' ' || c = '\t' || c = '\n' || c = '\r' || c = '\x0b' || c = '\x0c'

/-- ASCII letter, the relevant fragment of `[a-zA-Z]`. -/
def pyIsAlphaChar (c : Char) : Bool :=
  (decide (65 ≤ c.toNat) && decide (c.toNat ≤ 90)) ||
  (decide (97 ≤ c.toNat) && decide (c.toNat ≤ 122))

/-- Python regex `\w` on ASCII: letters, digits, underscore. -/
def pyIsWordChar (c : Char) : Bool :=
  pyIsAlphaChar c || pyIsDigitChar c || c = '_'

/-- ASCII lower-casing of one character (`str.lower` on the inputs at hand). -/
def charLower (c : Char) : Char :=
  if 65 ≤ c.toNat ∧ c.toNat ≤ 90 then Char.ofNat (c.toNat + 32) else c

/-- ASCII upper-casing of one character (`str.upper` on the inputs at hand). -/
def charUpper (c : Char) : Char :=
  if 97 ≤ c.toNat ∧ c.toNat ≤ 122 then Char.ofNat (c.toNat - 32) else c

/-- Python `str.lower` (ASCII fragment). -/
def pyLower (s : String) : String := ⟨s.data.map charLower⟩

/-- Python `str.upper` (ASCII fragment). -/
def pyUpper (s : String) : String := ⟨s.data.map charUpper⟩

/-- Python `sub in s` substring test. -/
def containsSub : List Char → List Char → Bool
  | sub, [] => sub.isEmpty
  | sub, c :: t => sub.isPrefixOf (c :: t) || containsSub sub t

/-- Python `str.strip()` (whitespace at both ends). -/
def pyStrip (s : String) : String :=
  ⟨((s.data.dropWhile pyIsSpaceChar).reverse.dropWhile pyIsSpaceChar).reverse⟩

/-- Python `str.strip(chars)` for an explicit character set. -/
def pyStripChars (cs : List Char) (s : String) : String :=
  ⟨((s.data.dropWhile (cs.contains ·)).reverse.dropWhile (cs.contains ·)).reverse⟩

/-- Fuel-driven worker for `pyReplace`; the fuel is the input length, enough
because every step consumes at least one character. -/
def replaceFuel (pat rep : List Char) : Nat → List Char → List Char
  | 0, s => s
  | _ + 1, [] => []
  | n + 1, c :: t =>
    if pat.isPrefixOf (c :: t) then rep ++ replaceFuel pat rep n (t.drop (pat.length - 1))
    else c :: replaceFuel pat rep n t

/-- Python `str.replace(pat, rep)`: every non-overlapping occurrence,
scanning left to right.  The sources only ever call `replace` with an empty
replacement, for which Python's empty-pattern case is the identity. -/
def pyReplace (s pat rep : String) : String :=
  if pat.data.isEmpty then s
  else ⟨replaceFuel pat.data rep.data s.data.length s.data⟩

/-- Fuel-driven worker for `pySplitSep`. -/
def splitSepFuel (sep : List Char) : Nat → List Char → List Char → List (List Char)
  | 0, s, acc => [acc.reverse ++ s]
  | _ + 1, [], acc => [acc.reverse]
  | n + 1, c :: t, acc =>
    if sep.isPrefixOf (c :: t) then acc.reverse :: splitSepFuel sep n (t.drop (sep.length - 1)) []
    else splitSepFuel sep n t (c :: acc)

/-- Python `str.split(sep)` for a non-empty separator. -/
def pySplitSep (s sep : String) : List String :=
  (splitSepFuel sep.data s.data.length s.data []).map (fun l => (⟨l⟩ : String))

/-- Worker for `pySplitWs`; second argument accumulates the current token
in reverse. -/
def splitWsAux : List Char → List Char → List (List Char)
  | [], acc => if acc.isEmpty then [] else [acc.reverse]
  | c :: t, acc =>
    if pyIsSpaceChar c then
      if acc.isEmpty then splitWsAux t [] else acc.reverse :: splitWsAux t []
    else splitWsAux t (c :: acc)

/-- Python `str.split()` (no argument): whitespace runs separate tokens, no
empty tokens are produced. -/
def pySplitWs (s : String) : List String :=
  (splitWsAux s.data []).map (fun l => (⟨l⟩ : String))

/-- Worker for `collapseWs`; the flag records whether the previous character
was whitespace (i.e. we are inside a run already represented by `' '`). -/
def collapseWsAux : Bool → List Char → List Char
  | _, [] => []
  | inRun, c :: t =>
    if pyIsSpaceChar c then
      if inRun then collapseWsAux true t else ' ' :: collapseWsAux true t
    else c :: collapseWsAux false t

/-- Python `re.sub(r'\s+', ' ', s)`. -/
def collapseWs (s : String) : String := ⟨collapseWsAux false s.data⟩

/-- Worker for `pyTitle`; the flag records whether the previous character
was a letter. -/
def titleAux : Bool → List Char → List Char
  | _, [] => []
  | prevAlpha, c :: t =>
    (if pyIsAlphaChar c then (if prevAlpha then charLower c else charUpper c) else c)
      :: titleAux (pyIsAlphaChar c) t

/-- Python `str.title()` (ASCII fragment): the first letter of each
letter-run is upper-cased, the rest lower-cased. -/
def pyTitle (s : String) : String := ⟨titleAux false s.data⟩

/-- Code-point comparison of characters. -/
def chLeB (a b : Char) : Bool := decide (a.toNat ≤ b.toNat)

/-- Python `<=` on strings: lexicographic by code point.  This is the
locale-naive string order used by `sorted` and pandas `sort_values`. -/
def strLeB : List Char → List Char → Bool
  | [], _ => true
  | _ :: _, [] => false
  | a :: as, b :: bs => if a = b then strLeB as bs else chLeB a b

/-- Python `sorted` on strings (ascending, stable; stability is irrelevant
for distinct keys). -/
def pySortedStrings (l : List String) : List String :=
  List.insertionSort (fun a b => strLeB a.data b.data = true) l

/-- Keep the first occurrence of each element (models iteration order of a
`dict` built by first insertion; also used where Python's `set` iteration
order is unspecified but all downstream uses are order-insensitive). -/
def dedupeAux {α : Type} [DecidableEq α] : List α → List α → List α
  | [], _ => []
  | a :: t, seen => if seen.contains a then dedupeAux t seen else a :: dedupeAux t (a :: seen)

/-- See `dedupeAux`; keeps the first occurrence of each element. -/
def dedupeKeepFirst {α : Type} [DecidableEq α] (l : List α) : List α := dedupeAux l []

/-- `re.sub(r'\s*-\s*$', '', s)`: remove one trailing dash along with the
whitespace around it; no change when the string does not end this way. -/
def removeTrailingDash (s : String) : String :=
  let r := s.data.reverse.dropWhile pyIsSpaceChar
  match r with
  | '-' :: r2 => ⟨(r2.dropWhile pyIsSpaceChar).reverse⟩
  | _ => s

/-- `re.sub(r'^\s*-\s*', '', s)`: remove one leading dash along with the
whitespace around it. -/
def removeLeadingDash (s : String) : String :=
  let r := s.data.dropWhile pyIsSpaceChar
  match r with
  | '-' :: r2 => ⟨r2.dropWhile pyIsSpaceChar⟩
  | _ => s

/-- `re.sub(r',\s*$', '', s)`: remove one trailing comma along with the
whitespace after it. -/
def removeTrailingComma (s : String) : String :=
  let r := s.data.reverse.dropWhile pyIsSpaceChar
  match r with
  | ',' :: r2 => ⟨r2.reverse⟩
  | _ => s

/-- Word-boundary test for the position in front of a character that is a
word character: the previous character (if any) must not be one.  All the
`\b`-anchored literals in the sources start and end with letters. -/
def boundaryBefore : Option Char → Bool
  | none => true
  | some p => !pyIsWordChar p

/-- Word-boundary test behind a word character: the next character (if any)
must not be a word character. -/
def boundaryAfter (t : List Char) : Bool :=
  match t.head? with
  | none => true
  | some c => !pyIsWordChar c

/-- Case-insensitive literal prefix test. -/
def caselessIsPrefix : List Char → List Char → Bool
  | [], _ => true
  | _ :: _, [] => false
  | a :: as, b :: bs => charLower a = charLower b && caselessIsPrefix as bs

/-- `re.findall(r'\b[a-zA-Z]+\b', s)`: maximal ASCII-letter runs delimited
by word boundaries on both sides (so letters glued to digits, as in
`256GB`, yield no token). -/
def alphaWordsFuel : Nat → Option Char → List Char → List (List Char)
  | 0, _, _ => []
  | _ + 1, _, [] => []
  | n + 1, prev, c :: t =>
    if pyIsAlphaChar c && boundaryBefore prev then
      let run := (c :: t).takeWhile pyIsAlphaChar
      let rest := (c :: t).dropWhile pyIsAlphaChar
      if boundaryAfter rest then run :: alphaWordsFuel n run.getLast? rest
      else alphaWordsFuel n run.getLast? rest
    else alphaWordsFuel n (some c) t

/-- All `\b[a-zA-Z]+\b` tokens of a string, as strings. -/
def alphaWords (s : String) : List String :=
  (alphaWordsFuel s.data.length none s.data).map (fun l => (⟨l⟩ : String))

/-- `p.startswith(pre)`. -/
def pyStartsWith (pre s : String) : Bool := pre.data.isPrefixOf s.data

/-! ## Cells, rows and data frames

A pandas row produced by this pipeline is a finite map from column names to
scalar values; we represent it as an association list (first entry wins, as
keys are unique by construction).  `Cell` covers the scalars occurring in
the pipeline; `ℚ` models both Python ints and floats exactly. -/

inductive Cell where
  | str (s : String)
  | num (q : ℚ)
  | nan
  | null
deriving DecidableEq, Repr

/-- A pandas row / Python dict: association list from column name to cell. -/
abbrev Row := List (String × Cell)

/-- Dictionary lookup (`row[k]` / `k in row`). -/
def rowGet (r : Row) (k : String) : Option Cell :=
  (r.find? (fun e => e.1 == k)).map (fun e => e.2)

/-- `k in row`. -/
def rowHasKey (r : Row) (k : String) : Bool := (rowGet r k).isSome

/-- Dictionary assignment `row[k] = v`: overwrite in place if present,
append otherwise. -/
def rowSet : Row → String → Cell → Row
  | [], k, v => [(k, v)]
  | e :: t, k, v => if e.1 = k then (k, v) :: t else e :: rowSet t k v

/-- The column names of a row. -/
def rowKeys (r : Row) : List String := r.map (fun e => e.1)

/-- `row.get(k, '')` where the code reads a string-valued field.  Missing
values yield `""` exactly as the `dict.get` defaults in the sources; the
sources never reach these reads with non-string scalars. -/
def rowGetStr (r : Row) (k : String) : String :=
  match rowGet r k with
  | some (Cell.str s) => s
  | _ => ""

/-- `row.get(k, 0)` where the code reads a numeric field. -/
def rowGetNum (r : Row) (k : String) : ℚ :=
  match rowGet r k with
  | some (Cell.num q) => q
  | _ => 0

/-- `pd.notna`: false exactly on `NaN` and `None`. -/
def cellNotna : Cell → Bool
  | Cell.nan => false
  | Cell.null => false
  | _ => true

/-- Python truthiness of the cells at hand (`NaN` is truthy!). -/
def cellTruthy : Cell → Bool
  | Cell.str s => !s.data.isEmpty
  | Cell.num q => decide (q ≠ 0)
  | Cell.nan => true
  | Cell.null => false

/-- Digit-list rendering of a natural number (worker, fuel-driven). -/
def natDigitsFuel : Nat → Nat → List Char
  | 0, _ => []
  | f + 1, n =>
    if n < 10 then [Char.ofNat (48 + n)]
    else natDigitsFuel f (n / 10) ++ [Char.ofNat (48 + n % 10)]

/-- Decimal rendering of a natural number. -/
def natRepr (n : Nat) : String := ⟨natDigitsFuel (n + 1) n⟩

/-- `str(value)` for the cells at hand.  SKU cells are strings in every
pipeline, so only the first branch is exercised by the claims; the numeric
rendering is an injective stand-in for Python's float `repr`. -/
def cellPyStr : Cell → String
  | Cell.str s => s
  | Cell.num q =>
    (if q.num < 0 then "-" else "") ++ natRepr q.num.natAbs ++
      (if q.den = 1 then "" else "/" ++ natRepr q.den)
  | Cell.nan => "nan"
  | Cell.null => "None"

/-- A pandas data frame: ordered column list plus rows. -/
structure DF where
  cols : List String
  rows : List Row
deriving DecidableEq, Repr

/-- `df[cols]` applied to one row: project onto the given columns (missing
entries materialise as `NaN`, as when pandas builds a frame from dicts). -/
def selectRowCols (cols : List String) (r : Row) : Row :=
  cols.map (fun c => (c, (rowGet r c).getD Cell.nan))

/-- `pd.DataFrame(list_of_dicts)`: columns are the union of keys in order
of first appearance; missing values become `NaN`. -/
def toDF (rows : List Row) : DF :=
  let cols := dedupeKeepFirst (rows.flatMap rowKeys)
  DF.mk cols (rows.map (selectRowCols cols))

/-- `df.rename(columns=ren)` applied to one row. -/
def renameRow (ren : List (String × String)) (r : Row) : Row :=
  r.map (fun e =>
    match ren.find? (fun p => p.1 == e.1) with
    | some p => (p.2, e.2)
    | none => e)

/-! ## Regex searches used by `standardize_product_name` (src/iphone.py)

Each Python `re.search` call on a fixed pattern is realised by a
position-by-position scan (`search…`, leftmost match first) with a matcher
(`try…`) for one start position.  For these patterns maximal munch for
`\d+`/`\s*` is equivalent to the backtracking semantics, because the token
following each quantifier cannot consume the characters given back; the
one-level backtracking of the optional groups is implemented explicitly. -/

/-- Split off the maximal digit run. -/
def takeDigits (s : List Char) : List Char × List Char :=
  (s.takeWhile pyIsDigitChar, s.dropWhile pyIsDigitChar)

/-- Split off the maximal whitespace run. -/
def takeSpaces (s : List Char) : List Char × List Char :=
  (s.takeWhile pyIsSpaceChar, s.dropWhile pyIsSpaceChar)

/-- Literal token: consume `w` or fail. -/
def lit (w : List Char) (s : List Char) : Option (List Char) :=
  if w.isPrefixOf s then some (s.drop w.length) else none

/-- Matcher for `iphone\s*(\d+)\s*(pro\s*max|pro|plus|se)?` at one start
position; returns (whole match, group 1, group 2). -/
def tryIphoneModel (s : List Char) : Option (List Char × List Char × List Char) :=
  match lit "iphone".data s with
  | none => none
  | some s1 =>
    let sp1 := s1.takeWhile pyIsSpaceChar
    let s2 := s1.dropWhile pyIsSpaceChar
    let ds := s2.takeWhile pyIsDigitChar
    let s3 := s2.dropWhile pyIsDigitChar
    if ds.isEmpty then none
    else
      let sp2 := s3.takeWhile pyIsSpaceChar
      let s4 := s3.dropWhile pyIsSpaceChar
      let variant : List Char :=
        match lit "pro".data s4 with
        | some s5 =>
          let sp3 := s5.takeWhile pyIsSpaceChar
          let s6 := s5.dropWhile pyIsSpaceChar
          (match lit "max".data s6 with
           | some _ => "pro".data ++ sp3 ++ "max".data
           | none => "pro".data)
        | none =>
          match lit "plus".data s4 with
          | some _ => "plus".data
          | none =>
            match lit "se".data s4 with
            | some _ => "se".data
            | none => []
      some ("iphone".data ++ sp1 ++ ds ++ sp2 ++ variant, ds, variant)

/-- `re.search(r'iphone\s*(\d+)\s*(pro\s*max|pro|plus|se)?', s)`. -/
def searchIphoneModel : List Char → Option (List Char × List Char × List Char)
  | [] => none
  | c :: t =>
    match tryIphoneModel (c :: t) with
    | some r => some r
    | none => searchIphoneModel t

/-- Matcher for `(\d+)\s*(gb|tb)` at one start position; returns (whole
match, group 1, group 2). -/
def tryCapacity (s : List Char) : Option (List Char × List Char × List Char) :=
  let ds := s.takeWhile pyIsDigitChar
  let s1 := s.dropWhile pyIsDigitChar
  if ds.isEmpty then none
  else
    let sp := s1.takeWhile pyIsSpaceChar
    let s2 := s1.dropWhile pyIsSpaceChar
    match lit "gb".data s2 with
    | some _ => some (ds ++ sp ++ "gb".data, ds, "gb".data)
    | none =>
      match lit "tb".data s2 with
      | some _ => some (ds ++ sp ++ "tb".data, ds, "tb".data)
      | none => none

/-- `re.search(r'(\d+)\s*(gb|tb)', s)`. -/
def searchCapacity : List Char → Option (List Char × List Char × List Char)
  | [] => none
  | c :: t =>
    match tryCapacity (c :: t) with
    | some r => some r
    | none => searchCapacity t

/-! ## Name standardizer (src/iphone.py, `standardize_product_name`) -/

/-- `standardize_product_name` from src/iphone.py: lower-case, locate the
model and capacity tokens, derive the colour from the remaining text, and
join the recognised parts with underscores; fall back to the space-free
lower-cased name when nothing was recognised. -/
def standardize_product_name (name : String) : String :=
  if name.data.isEmpty then ""
  else
    let nm := pyLower name
    let modelM := searchIphoneModel nm.data
    let storM := searchCapacity nm.data
    let nameCopy1 :=
      match modelM with
      | some g => pyReplace nm ⟨g.1⟩ ""
      | none => nm
    let nameCopy2 :=
      match storM with
      | some g => pyReplace nameCopy1 ⟨g.1⟩ ""
      | none => nameCopy1
    let color := (pyStrip nameCopy2).data.filter (fun c => c ≠ ' ')
    let keyParts : List String :=
      (match modelM with
       | some g => [⟨"iphone".data ++ g.2.1 ++ g.2.2.filter (fun c => c ≠ ' ')⟩]
       | none => []) ++
      (match storM with
       | some g => [⟨g.2.1 ++ g.2.2⟩]
       | none => []) ++
      (if color.isEmpty then [] else [⟨color⟩])
    if keyParts.isEmpty then ⟨nm.data.filter (fun c => c ≠ ' ')⟩
    else String.intercalate "_" keyParts

/-- The Python function applied to `None` (`if not name: return ""`). -/
def standardizeOpt : Option String → String
  | none => ""
  | some s => standardize_product_name s

/-! ## Mac spec extractor (src/mac.py `extract_specs_from_text`, and the
chip field of src/enhanced_mac_scraper.py `extract_specs_from_text`) -/

/-- Matcher for `m[1-4](?:\s+(?:pro|max|ultra))?\s+<suffix>` at one start
position (the part of the chip patterns after the optional vendor word);
returns group 1.  If the qualifier path fails to reach the suffix the
optional group backtracks to empty, as in Python `re`. -/
def tryChipCore (suffix : List Char) (s : List Char) : Option (List Char) :=
  match s with
  | 'm' :: d :: rest =>
    if d = '1' || d = '2' || d = '3' || d = '4' then
      let trySuffix : List Char → Bool := fun r =>
        let sp := r.takeWhile pyIsSpaceChar
        !sp.isEmpty && suffix.isPrefixOf (r.dropWhile pyIsSpaceChar)
      let qual : Option (List Char × List Char) :=
        let sp := rest.takeWhile pyIsSpaceChar
        let r1 := rest.dropWhile pyIsSpaceChar
        if sp.isEmpty then none
        else
          match lit "pro".data r1 with
          | some r2 => some (sp ++ "pro".data, r2)
          | none =>
            match lit "max".data r1 with
            | some r2 => some (sp ++ "max".data, r2)
            | none =>
              match lit "ultra".data r1 with
              | some r2 => some (sp ++ "ultra".data, r2)
              | none => none
      match qual with
      | some q =>
        if trySuffix q.2 then some ('m' :: d :: q.1)
        else if trySuffix rest then some ['m', d]
        else none
      | none => if trySuffix rest then some ['m', d] else none
    else none
  | _ => none

/-- Matcher for `apple\s+(m[1-4](?:\s+(?:pro|max|ultra))?)\s+<suffix>`. -/
def tryChipApple (suffix : List Char) (s : List Char) : Option (List Char) :=
  match lit "apple".data s with
  | none => none
  | some s1 =>
    let sp := s1.takeWhile pyIsSpaceChar
    if sp.isEmpty then none else tryChipCore suffix (s1.dropWhile pyIsSpaceChar)

/-- Leftmost search with a one-position matcher. -/
def searchWith (try1 : List Char → Option (List Char)) : List Char → Option (List Char)
  | [] => none
  | c :: t =>
    match try1 (c :: t) with
    | some r => some r
    | none => searchWith try1 t

/-- The chip field of src/mac.py: patterns
`apple\s+(m[1-4](?:\s+(?:pro|max|ultra))?)\s+chip` then
`(m[1-4](?:\s+(?:pro|max|ultra))?)\s+chip`, first match wins, result
upper-cased with double spaces collapsed (`.replace('  ', ' ')`). -/
def macChipOf (textLower : List Char) : String :=
  match searchWith (tryChipApple "chip".data) textLower with
  | some g1 => pyReplace (pyUpper ⟨g1⟩) "  " " "
  | none =>
    match searchWith (tryChipCore "chip".data) textLower with
    | some g1 => pyReplace (pyUpper ⟨g1⟩) "  " " "
    | none => ""

/-- The chip field of src/enhanced_mac_scraper.py: same two patterns plus
`(m[1-4](?:\s+(?:pro|max|ultra))?)\s+processor`; the post-processing
`.replace(' ', ' ')` there is the identity. -/
def enhancedChipOf (textLower : List Char) : String :=
  match searchWith (tryChipApple "chip".data) textLower with
  | some g1 => pyUpper ⟨g1⟩
  | none =>
    match searchWith (tryChipCore "chip".data) textLower with
    | some g1 => pyUpper ⟨g1⟩
    | none =>
      match searchWith (tryChipCore "processor".data) textLower with
      | some g1 => pyUpper ⟨g1⟩
      | none => ""

/-- Matcher for `(\d+)-core\s+<w1>(\s+<w2>)…` at one position (used for
`cpu`, `gpu` and `neural\s+engine`); returns group 1. -/
def tryDashCore (words : List (List Char)) (s : List Char) : Option (List Char) :=
  let ds := s.takeWhile pyIsDigitChar
  let s1 := s.dropWhile pyIsDigitChar
  if ds.isEmpty then none
  else
    match lit "-core".data s1 with
    | none => none
    | some s2 =>
      let rec wordsAfter : List (List Char) → List Char → Bool
        | [], _ => true
        | w :: ws, r =>
          let sp := r.takeWhile pyIsSpaceChar
          if sp.isEmpty then false
          else
            match lit w (r.dropWhile pyIsSpaceChar) with
            | some r2 => wordsAfter ws r2
            | none => false
      if wordsAfter words s2 then some ds else none

/-- Matcher for `(\d+)gb\s+(?:unified\s+)?memory` at one position. -/
def tryMem1 (s : List Char) : Option (List Char) :=
  let ds := s.takeWhile pyIsDigitChar
  let s1 := s.dropWhile pyIsDigitChar
  if ds.isEmpty then none
  else
    match lit "gb".data s1 with
    | none => none
    | some s2 =>
      let sp := s2.takeWhile pyIsSpaceChar
      let r := s2.dropWhile pyIsSpaceChar
      if sp.isEmpty then none
      else
        let unifiedPath : Bool :=
          match lit "unified".data r with
          | some r1 =>
            let sp2 := r1.takeWhile pyIsSpaceChar
            !sp2.isEmpty && "memory".data.isPrefixOf (r1.dropWhile pyIsSpaceChar)
          | none => false
        if unifiedPath then some ds
        else if "memory".data.isPrefixOf r then some ds
        else none

/-- Matcher for `memory[:\s]*(\d+)gb` at one position. -/
def tryMem3 (s : List Char) : Option (List Char) :=
  match lit "memory".data s with
  | none => none
  | some s1 =>
    let s2 := s1.dropWhile (fun c => c = ':' || pyIsSpaceChar c)
    let ds := s2.takeWhile pyIsDigitChar
    if ds.isEmpty then none
    else if "gb".data.isPrefixOf (s2.dropWhile pyIsDigitChar) then some ds
    else none

/-- Matcher for `(\d+)(gb|tb)\s+storage` at one position; returns
(group 1, group 2). -/
def tryStor1 (s : List Char) : Option (List Char × List Char) :=
  let ds := s.takeWhile pyIsDigitChar
  let s1 := s.dropWhile pyIsDigitChar
  if ds.isEmpty then none
  else
    let unit : Option (List Char × List Char) :=
      match lit "gb".data s1 with
      | some r => some ("gb".data, r)
      | none =>
        match lit "tb".data s1 with
        | some r => some ("tb".data, r)
        | none => none
    match unit with
    | none => none
    | some u =>
      let sp := u.2.takeWhile pyIsSpaceChar
      if !sp.isEmpty && "storage".data.isPrefixOf (u.2.dropWhile pyIsSpaceChar) then
        some (ds, u.1)
      else none

/-- Matcher for `storage[:\s]*(\d+)(gb|tb)` at one position. -/
def tryStor2 (s : List Char) : Option (List Char × List Char) :=
  match lit "storage".data s with
  | none => none
  | some s1 =>
    let s2 := s1.dropWhile (fun c => c = ':' || pyIsSpaceChar c)
    let ds := s2.takeWhile pyIsDigitChar
    let s3 := s2.dropWhile pyIsDigitChar
    if ds.isEmpty then none
    else
      match lit "gb".data s3 with
      | some _ => some (ds, "gb".data)
      | none =>
        match lit "tb".data s3 with
        | some _ => some (ds, "tb".data)
        | none => none

/-- Leftmost search for a two-group matcher. -/
def searchWith2 (try1 : List Char → Option (List Char × List Char)) :
    List Char → Option (List Char × List Char)
  | [] => none
  | c :: t =>
    match try1 (c :: t) with
    | some r => some r
    | none => searchWith2 try1 t

/-- The spec record of src/mac.py `extract_specs_from_text`. -/
structure MacSpecs where
  chip : String
  cpu_cores : String
  gpu_cores : String
  neural_engine : String
  memory : String
  storage : String
deriving DecidableEq, Repr

/-- The all-empty spec record (the initial dict in the sources). -/
def MacSpecs.empty : MacSpecs := ⟨"", "", "", "", "", ""⟩

/-- src/mac.py `extract_specs_from_text`: each field is searched for
independently in the lower-cased text with the source's pattern lists,
first match wins, empty string on no match. -/
def extract_specs_from_text (text : String) : MacSpecs :=
  if text.data.isEmpty then MacSpecs.empty
  else
    let tl := (pyLower text).data
    { chip := macChipOf tl
      cpu_cores :=
        match searchWith (tryDashCore ["cpu".data]) tl with
        | some ds => ⟨ds⟩
        | none => ""
      gpu_cores :=
        match searchWith (tryDashCore ["gpu".data]) tl with
        | some ds => ⟨ds⟩
        | none => ""
      neural_engine :=
        match searchWith (tryDashCore ["neural".data, "engine".data]) tl with
        | some ds => ⟨ds⟩
        | none => ""
      memory :=
        -- pattern list: `(\d+)gb\s+(?:unified\s+)?memory`, `(\d+)gb\s+memory`
        -- (subsumed by the first), `memory[:\s]*(\d+)gb`
        match searchWith tryMem1 tl with
        | some ds => ⟨ds ++ "GB".data⟩
        | none =>
          match searchWith tryMem3 tl with
          | some ds => ⟨ds ++ "GB".data⟩
          | none => ""
      storage :=
        match searchWith2 tryStor1 tl with
        | some g => ⟨g.1 ++ (pyUpper ⟨g.2⟩).data⟩
        | none =>
          match searchWith2 tryStor2 tl with
          | some g => ⟨g.1 ++ (pyUpper ⟨g.2⟩).data⟩
          | none => "" }

/-- The chip field computed by src/enhanced_mac_scraper.py
`extract_specs_from_text` (fields there are extracted independently, so
the chip field is a function of the text on its own). -/
def enhanced_extract_chip (text : String) : String :=
  if text.data.isEmpty then "" else enhancedChipOf (pyLower text).data

/-! ## Spec-to-product matcher (src/mac.py `match_products_with_specs`) -/

/-- The fields of a raw JSON product that the matcher reads. -/
structure MacProduct where
  sku : String
  name : String
  price : Option ℚ
deriving DecidableEq, Repr

/-- `x.get('price', {}).get('fullPrice', 0)`. -/
def productPriceKey (p : MacProduct) : ℚ := p.price.getD 0

/-- First digit run of a string, if any (`re.search(r'(\d+)', s)`). -/
def firstDigits : List Char → Option (List Char)
  | [] => none
  | c :: t => if pyIsDigitChar c then some ((c :: t).takeWhile pyIsDigitChar) else firstDigits t

/-- Numeric value of a digit run. -/
def digitsToNat (ds : List Char) : Nat := ds.foldl (fun n c => 10 * n + (c.toNat - 48)) 0

/-- `storage_sort_key` from src/mac.py: TB counts a thousandfold, GB as-is,
anything else 0.  (The dict always carries the `storage` key, so the
`'0GB'` default of `specs.get` is dead; Python would raise on a
digit-free TB/GB string, which the extractor never produces — `getD []`
stands in for that impossible case.) -/
def storage_sort_key (sp : MacSpecs) : ℤ :=
  if containsSub "TB".data sp.storage.data then
    (digitsToNat ((firstDigits sp.storage.data).getD []) : ℤ) * 1000
  else if containsSub "GB".data sp.storage.data then
    (digitsToNat ((firstDigits sp.storage.data).getD []) : ℤ)
  else 0

/-- Ascending stable sort of products by price (Python `sorted(...)` with
the price key). -/
def sortProductsByPrice (l : List MacProduct) : List MacProduct :=
  List.insertionSort (fun a b => productPriceKey a ≤ productPriceKey b) l

/-- Ascending stable sort of spec variants by `storage_sort_key`. -/
def sortSpecsByStorage (l : List MacSpecs) : List MacSpecs :=
  List.insertionSort (fun a b => storage_sort_key a ≤ storage_sort_key b) l

/-- src/mac.py `match_products_with_specs`: with no spec variants every
product gets the empty spec record; otherwise products are price-sorted,
specs storage-sorted, and specs are assigned round-robin by position.  The
inner `if sorted_specs` test of the source is kept (it is always true in
this branch). -/
def match_products_with_specs (products : List MacProduct) (specVariants : List MacSpecs) :
    List (MacProduct × MacSpecs) :=
  if specVariants.isEmpty then products.map (fun p => (p, MacSpecs.empty))
  else
    let sortedProducts := sortProductsByPrice products
    let sortedSpecs := sortSpecsByStorage specVariants
    sortedProducts.enum.map (fun ip =>
      if !sortedSpecs.isEmpty then
        (ip.2, sortedSpecs.getD (ip.1 % sortedSpecs.length) MacSpecs.empty)
      else (ip.2, MacSpecs.empty))

/-- `Modelled from the spec:` the spec-to-product matcher as worded in
§4.4 of the specification, for refinement comparison with the source
translation `match_products_with_specs`: empty spec list gives all-empty
spec records; otherwise the i-th price-sorted product receives the
storage-sorted spec variant number `i mod len(specVariants)`. -/
def matchSpecsToProducts_spec (products : List MacProduct) (specVariants : List MacSpecs) :
    List (MacProduct × MacSpecs) :=
  if specVariants.isEmpty then products.map (fun p => (p, MacSpecs.empty))
  else
    (sortProductsByPrice products).enum.map (fun ip =>
      (ip.2, (sortSpecsByStorage specVariants).getD (ip.1 % specVariants.length) MacSpecs.empty))

/-! ## Cross-region merge (src/iphone.py and src/ipad.py
`merge_product_data`)

`REGIONS` is the configured two-entry table `{"": US, "tw": TW}` of both
sources, with `""` (US) the reference region.  pandas operations are
modelled on rows: `drop_duplicates(subset=k)` keeps the first row per key
value; `pd.merge(..., how='outer')` emits each left row (extended by its
right match, or by `NaN` right columns) followed by the unmatched right
rows (extended by `NaN` left columns); `fillna` on a column rewrites `NaN`
cells of that column.  The outer-join row order of pandas is immaterial to
the claims, which are order-insensitive. -/

/-- `REGIONS.get(region_code, ["Unknown"])[0]`. -/
def regionDisplay (code : String) : String :=
  if code = "" then "US" else if code = "tw" then "TW" else "Unknown"

/-- A raw product record as built by `extract_product_details` (fields the
merge step consumes). -/
structure RawEntry where
  sku : String
  name : String
  price : Option ℚ
  regionCode : String
  partNumber : String
deriving DecidableEq, Repr

/-- A price that the page did not provide becomes `NaN` in the frame. -/
def priceCell : Option ℚ → Cell
  | some q => Cell.num q
  | none => Cell.nan

/-- The dict appended by src/iphone.py `extract_product_details`. -/
def mkIphoneRow (e : RawEntry) : Row :=
  [("SKU", Cell.str e.sku), ("Name", Cell.str e.name), ("Price", priceCell e.price),
   ("Region", Cell.str (regionDisplay e.regionCode)), ("Region_Code", Cell.str e.regionCode),
   ("PartNumber", Cell.str e.partNumber),
   ("Standardized_Name", Cell.str (standardize_product_name e.name))]

/-- The dict appended by src/ipad.py `extract_product_details`. -/
def mkIpadRow (e : RawEntry) : Row :=
  [("SKU", Cell.str e.sku), ("Name", Cell.str e.name), ("Price", priceCell e.price),
   ("Region", Cell.str (regionDisplay e.regionCode)), ("Region_Code", Cell.str e.regionCode),
   ("PartNumber", Cell.str e.partNumber)]

/-- `drop_duplicates(subset=key)` worker; `seen` holds key values already
emitted. -/
def dedupByAux (key : String) : List Row → List (Option Cell) → List Row
  | [], _ => []
  | r :: t, seen =>
    if seen.contains (rowGet r key) then dedupByAux key t seen
    else r :: dedupByAux key t (rowGet r key :: seen)

/-- `df.drop_duplicates(subset=key)`: first occurrence per key value wins. -/
def dedupBy (key : String) (rows : List Row) : List Row := dedupByAux key rows []

/-- `pd.merge(L, R, on=key, how='outer')` for frames whose key values are
unique per side (guaranteed by the preceding `drop_duplicates`).  `lCols` /
`rCols` are the column lists of the two frames, used to materialise `NaN`
cells for missing sides. -/
def outerJoin (key : String) (lCols rCols : List String) (L R : List Row) : List Row :=
  (L.map (fun l =>
    match R.find? (fun r => rowGet r key == rowGet l key) with
    | some r => l ++ r.filter (fun e => e.1 ≠ key)
    | none => l ++ (rCols.filter (fun c => c ≠ key)).map (fun c => (c, Cell.nan))))
  ++ ((R.filter (fun r => !(L.any (fun l => rowGet l key == rowGet r key)))).map
      (fun r => (lCols.filter (fun c => c ≠ key)).map (fun c => (c, Cell.nan)) ++ r))

/-- `fillna(v)` on one cell of one row. -/
def fillCell (col : String) (v : Cell) (r : Row) : Row :=
  match rowGet r col with
  | some Cell.nan => rowSet r col v
  | _ => r

/-- `df[col] = df[col].fillna(v)`. -/
def fillCol (col : String) (v : Cell) (rows : List Row) : List Row :=
  rows.map (fillCell col v)

/-- The per-region frame of src/iphone.py `merge_product_data`: filter by
region code, de-duplicate by standardized name, rename columns with the
region display name. -/
def iphoneRegionRows (entries : List RawEntry) (code : String) : List Row :=
  let disp := regionDisplay code
  (dedupBy "Standardized_Name"
      ((entries.map mkIphoneRow).filter
        (fun r => rowGet r "Region_Code" == some (Cell.str code)))).map
    (renameRow [("SKU", "SKU_" ++ disp), ("Price", "Price_" ++ disp),
                ("Name", "Name_" ++ disp), ("PartNumber", "PartNumber_" ++ disp)])

/-- Columns of the US (reference) iPhone frame after renaming. -/
def iphoneLCols : List String :=
  ["SKU_US", "Name_US", "Price_US", "Region", "Region_Code", "PartNumber_US",
   "Standardized_Name"]

/-- The outer join of the two region frames on `Standardized_Name`, the TW
side restricted to `columns_to_merge = [SKU_TW, Price_TW,
Standardized_Name]` as in the source. -/
def iphoneMergedRaw (entries : List RawEntry) : List Row :=
  outerJoin "Standardized_Name" iphoneLCols ["SKU_TW", "Price_TW", "Standardized_Name"]
    (iphoneRegionRows entries "")
    ((iphoneRegionRows entries "tw").map
      (selectRowCols ["SKU_TW", "Price_TW", "Standardized_Name"]))

/-- The fill loop of src/iphone.py: per region, `Price` filled with `0` and
`SKU` filled with `''` (names and part numbers are NOT filled there). -/
def iphoneFilled (entries : List RawEntry) : List Row :=
  fillCol "SKU_TW" (Cell.str "")
    (fillCol "Price_TW" (Cell.num 0)
      (fillCol "SKU_US" (Cell.str "")
        (fillCol "Price_US" (Cell.num 0) (iphoneMergedRaw entries))))

/-- src/iphone.py `merge_product_data` end to end: empty input gives an
empty frame; otherwise join, fill, select the output columns and rename
the reference-region name to `PRODUCT_NAME`. -/
def merge_product_data_iphone (entries : List RawEntry) : DF :=
  if entries.isEmpty then DF.mk [] []
  else
    DF.mk ["SKU_US", "SKU_TW", "Price_US", "Price_TW", "PRODUCT_NAME"]
      ((iphoneFilled entries).map (fun r =>
        renameRow [("Name_US", "PRODUCT_NAME")]
          (selectRowCols ["SKU_US", "SKU_TW", "Price_US", "Price_TW", "Name_US"] r)))

/-- The per-region frame of src/ipad.py `merge_product_data`: filter by
region code, de-duplicate by SKU, rename price/name/part-number columns. -/
def ipadRegionRows (entries : List RawEntry) (code : String) : List Row :=
  let disp := regionDisplay code
  (dedupBy "SKU"
      ((entries.map mkIpadRow).filter
        (fun r => rowGet r "Region_Code" == some (Cell.str code)))).map
    (renameRow [("Price", "Price_" ++ disp), ("Name", "Name_" ++ disp),
                ("PartNumber", "PartNumber_" ++ disp)])

/-- The outer join of src/ipad.py: the base frame is the reference region
restricted to `[SKU, Price_US, Name_US]`, joined on `SKU` with the TW
frame restricted to `[SKU, Price_TW, Name_TW]`. -/
def ipadMergedRaw (entries : List RawEntry) : List Row :=
  outerJoin "SKU" ["SKU", "Price_US", "Name_US"] ["SKU", "Price_TW", "Name_TW"]
    ((ipadRegionRows entries "").map (selectRowCols ["SKU", "Price_US", "Name_US"]))
    ((ipadRegionRows entries "tw").map (selectRowCols ["SKU", "Price_TW", "Name_TW"]))

/-- The fill loop of src/ipad.py: per region, `Price` filled with `0` and
`Name` filled with `''`. -/
def ipadFilled (entries : List RawEntry) : List Row :=
  fillCol "Name_TW" (Cell.str "")
    (fillCol "Price_TW" (Cell.num 0)
      (fillCol "Name_US" (Cell.str "")
        (fillCol "Price_US" (Cell.num 0) (ipadMergedRaw entries))))

/-- src/ipad.py `merge_product_data` end to end. -/
def merge_product_data_ipad (entries : List RawEntry) : DF :=
  if entries.isEmpty then DF.mk [] []
  else
    DF.mk ["SKU", "Price_US", "Price_TW", "PRODUCT_NAME"]
      ((ipadFilled entries).map (fun r =>
        renameRow [("Name_US", "PRODUCT_NAME")]
          (selectRowCols ["SKU", "Price_US", "Price_TW", "Name_US"] r)))

/-- The join keys of one region partition of the iPhone pipeline
(standardized names of the records with that region code). -/
def iphoneRegionKeys (entries : List RawEntry) (code : String) : List Cell :=
  (entries.filter (fun e => e.regionCode = code)).map
    (fun e => Cell.str (standardize_product_name e.name))

/-- The join keys present in the union of the two region partitions of the
iPhone pipeline (standardized names, region-filtered as the merge
partitions the frame). -/
def iphonePartitionKeys (entries : List RawEntry) : List Cell :=
  iphoneRegionKeys entries "" ++ iphoneRegionKeys entries "tw"

/-- The join keys of one region partition of the iPad pipeline (raw
SKUs of the records with that region code). -/
def ipadRegionKeys (entries : List RawEntry) (code : String) : List Cell :=
  (entries.filter (fun e => e.regionCode = code)).map (fun e => Cell.str e.sku)

/-- The join keys present in the union of the two region partitions of the
iPad pipeline (raw SKUs). -/
def ipadPartitionKeys (entries : List RawEntry) : List Cell :=
  ipadRegionKeys entries "" ++ ipadRegionKeys entries "tw"

/-! ## Smart color consolidator (src/smart_consolidate_colors.py)

`common_colors` is a Python `set` in the source; its iteration order is
unspecified (salted string hashing).  It is embedded as the list in source
order; every use in the claims is order-insensitive (substring membership,
exact membership, or a `sorted(...)` of the collected results). -/

/-- `SmartColorConsolidator.common_colors`. -/
def common_colors : List String :=
  ["black", "blue", "green", "pink", "yellow", "red", "white", "purple", "orange",
   "gray", "grey", "silver", "gold", "brown", "cyan", "magenta",
   "space gray", "space grey", "rose gold", "midnight", "starlight", "deep purple",
   "alpine green", "sierra blue", "graphite", "jet black", "product red",
   "natural", "slate", "ultra", "ceramic", "edition"]

/-- `SmartColorConsolidator.extract_color_from_name`: vocabulary colours
found as substrings of the lower-cased name, plus the last one or two
`\b[a-zA-Z]+\b` words of the original name that are not unit/connectivity
tokens; de-duplicated (`list(set(...))`, order-insensitive downstream). -/
def extract_color_from_name (product_name : String) : List String :=
  if product_name.data.isEmpty then []
  else
    let nl := pyLower product_name
    let vocab := common_colors.filter (fun c => containsSub c.data nl.data)
    let words := alphaWords product_name
    let positional :=
      if words.length ≥ 2 then
        ((words.drop (words.length - 2)).filter (fun w =>
            !(["gb", "tb", "inch", "wifi", "cellular", "gps", "mm"].contains (pyLower w)))).map
          pyLower
      else []
    dedupeKeepFirst (vocab ++ positional)

/-- Worker for `subWordBound`: remove every case-insensitive,
word-boundary-delimited occurrence of `pat`, scanning left to right on the
original string (fuel = input length). -/
def subWordBoundFuel (pat : List Char) : Nat → Option Char → List Char → List Char
  | 0, _, s => s
  | _ + 1, _, [] => []
  | n + 1, prev, c :: t =>
    if boundaryBefore prev && caselessIsPrefix pat (c :: t) &&
        boundaryAfter ((c :: t).drop pat.length) then
      subWordBoundFuel pat n ((c :: t).take pat.length).getLast? ((c :: t).drop pat.length)
    else c :: subWordBoundFuel pat n (some c) t

/-- `re.sub(rf'\b{re.escape(color)}\b', '', s, flags=re.IGNORECASE)` for
the letters-and-spaces colour words of the vocabulary. -/
def subWordBound (pat : String) (s : String) : String :=
  if pat.data.isEmpty then s
  else ⟨subWordBoundFuel pat.data s.data.length none s.data⟩

/-- A grouping key of `SmartColorConsolidator.create_grouping_key`.  The
source builds f-strings embedding prices; key equality is all that matters
for grouping, so the key is modelled as the pair of the string part and
the embedded price cells (float reprs are injective and never contain the
`_` separator, so equality of the pairs coincides with equality of the
Python key strings). -/
abbrev GKey := String × List Cell

/-- `SmartColorConsolidator.create_grouping_key`. -/
def create_grouping_key (row : Row) (product_type : String) : GKey :=
  let pt := pyLower product_type
  if pt = "iphone" then
    let name := rowGetStr row "PRODUCT_NAME"
    let parts := pySplitWs name
    let base :=
      if parts.length > 1 then
        let lastWord := pyLower ((parts.getLast?).getD "")
        if common_colors.contains lastWord || lastWord.data.length < 8 then
          String.intercalate " " parts.dropLast
        else name
      else name
    (pyStrip base, [])
  else if pt = "ipad" then
    let name := rowGetStr row "PRODUCT_NAME"
    let base :=
      if containsSub " - ".data name.data then ((pySplitSep name " - ").headD "")
      else
        let parts := pySplitWs name
        if parts.length > 1 then
          if common_colors.contains (pyLower ((parts.getLast?).getD "")) then
            String.intercalate " " parts.dropLast
          else name
        else name
    (pyStrip base, [])
  else if pt = "mac" then
    ("mac_" ++ rowGetStr row "Chip" ++ "_" ++ rowGetStr row "Memory" ++ "_" ++
      rowGetStr row "Storage",
     [(rowGet row "Price_US").getD (Cell.num 0)])
  else if pt = "watch" then
    let name := rowGetStr row "PRODUCT_NAME"
    let baseParts : List String :=
      if containsSub "Watch".data name.data then
        let parts := pySplitSep name ","
        if parts.length ≥ 2 then
          parts.take 2 ++
            (match (parts.drop 2).find? (fun part =>
                ["gps", "cellular", "wifi"].any
                  (fun conn => containsSub conn.data (pyLower part).data)) with
             | some part => [pyStrip part]
             | none => [])
        else []
      else []
    let baseName := if baseParts.isEmpty then name else String.intercalate ", " baseParts
    (baseName, [(rowGet row "Price_US").getD (Cell.num 0)])
  else if pt = "airpods" || pt = "tvhome" then
    let name := rowGetStr row "PRODUCT_NAME"
    let stripped := common_colors.foldl (fun acc color => subWordBound color acc) name
    let baseName := removeTrailingDash (pyStrip (collapseWs stripped))
    (baseName, [(rowGet row "Price_US").getD (Cell.num 0)])
  else
    (rowGetStr row "PRODUCT_NAME", [(rowGet row "Price_US").getD (Cell.num 0)])

/-- `SmartColorConsolidator.collect_sku_variants`: gather the SKU strings
of the group per region (split SKU columns for iPhone/Watch, the single
`SKU` column otherwise) and emit the `SKU_Variants_*` fields only when
non-empty. -/
def collect_sku_variants (items : List Row) (product_type : String) : Row :=
  let split := pyLower product_type = "iphone" || pyLower product_type = "watch"
  let pick : Row → String → List String := fun r k =>
    match rowGet r k with
    | some c => if cellNotna c then [cellPyStr c] else []
    | none => []
  let skusUS :=
    if split then items.flatMap (fun r => pick r "SKU_US")
    else items.flatMap (fun r => pick r "SKU")
  let skusTW := if split then items.flatMap (fun r => pick r "SKU_TW") else []
  (if !skusUS.isEmpty then [("SKU_Variants_US", Cell.str (String.intercalate ", " skusUS))]
   else []) ++
  (if !skusTW.isEmpty then [("SKU_Variants_TW", Cell.str (String.intercalate ", " skusTW))]
   else [])

/-- `dict.update(sku_variants)`. -/
def applyVariants (r : Row) (vars : Row) : Row :=
  vars.foldl (fun acc e => rowSet acc e.1 e.2) r

/-- `SmartColorConsolidator.create_clean_product_name`. -/
def create_clean_product_name (original_name : String) (product_type : String) : String :=
  if pyLower product_type = "ipad" && containsSub " - ".data original_name.data then
    (pySplitSep original_name " - ").headD ""
  else
    let words := pySplitWs original_name
    let cleanWords :=
      (words.enum.filter (fun iw =>
        let wl := pyStripChars ['(', ')', ','] (pyLower iw.2)
        !(common_colors.contains wl && iw.1 + 2 ≥ words.length))).map (fun iw => iw.2)
    let cleanName :=
      pyStrip (collapseWs (removeTrailingComma (String.intercalate " " cleanWords)))
    if cleanName.data.isEmpty then original_name else cleanName

/-- The title-cased colour de-duplication loop of
`SmartColorConsolidator.consolidate_group` (clean, length > 1, not yet
seen, insertion order kept). -/
def buildUniqueColors : List String → List String → List String
  | [], acc => acc
  | c :: t, acc =>
    let cc := pyTitle (pyStrip c)
    if decide (cc.data.length > 1) && !(acc.contains cc) then
      buildUniqueColors t (acc ++ [cc])
    else buildUniqueColors t acc

/-- `SmartColorConsolidator.consolidate_group`: first member is the base
row; colours of all members are collected, cleaned and joined sorted (or
the sentinels used for one/zero extracted colours); `Color_Variants` is
the member count; `PRODUCT_NAME` is the colour-stripped first name; SKU
variants are appended. -/
def consolidate_group (items : List Row) (product_type : String) : Row :=
  let base := items.headD []
  let allNames := items.map (fun r => rowGetStr r "PRODUCT_NAME")
  let colors := items.flatMap (fun r => extract_color_from_name (rowGetStr r "PRODUCT_NAME"))
  let uniqueColors := buildUniqueColors colors []
  let ac :=
    if uniqueColors.length > 1 then String.intercalate ", " (pySortedStrings uniqueColors)
    else if uniqueColors.length = 1 then (uniqueColors.headD "")
    else "Multiple Colors"
  let r1 := rowSet (rowSet base "Available_Colors" (Cell.str ac))
      "Color_Variants" (Cell.num items.length)
  let r2 := rowSet r1 "PRODUCT_NAME"
      (Cell.str (create_clean_product_name (allNames.headD "") product_type))
  applyVariants r2 (collect_sku_variants items product_type)

/-- The single-member branch of
`SmartColorConsolidator.consolidate_products` (lines 151-162): the row is
kept, `Available_Colors` and `Color_Variants` are set, SKU variants are
appended. -/
def smart_single_row (r : Row) (product_type : String) : Row :=
  applyVariants
    (rowSet (rowSet r "Available_Colors" (Cell.str "Single Option"))
      "Color_Variants" (Cell.num 1))
    (collect_sku_variants [r] product_type)

/-- Append a row to its group, keeping first-appearance key order
(`defaultdict(list)` over insertion-ordered dict keys). -/
def addToGroups (gs : List (GKey × List Row)) (k : GKey) (r : Row) : List (GKey × List Row) :=
  match gs with
  | [] => [(k, [r])]
  | g :: t => if g.1 = k then (g.1, g.2 ++ [r]) :: t else g :: addToGroups t k r

/-- The grouping loop of `consolidate_products`. -/
def groupRows (rows : List Row) (product_type : String) : List (GKey × List Row) :=
  rows.foldl (fun gs r => addToGroups gs (create_grouping_key r product_type) r) []

/-- `SmartColorConsolidator.reorder_columns`. -/
def reorder_columns (df : DF) (product_type : String) : DF :=
  let priceCols := pySortedStrings (df.cols.filter (fun c => pyStartsWith "Price_" c))
  let colorCols := (["Available_Colors", "Color_Variants"].filter (fun c => df.cols.contains c))
  let skuCols := pySortedStrings (df.cols.filter (fun c => containsSub "SKU".data c.data))
  let specCols :=
    if pyLower product_type = "mac" then
      ["Chip", "CPU_Cores", "GPU_Cores", "Neural_Engine", "Memory", "Storage"].filter
        (fun c => df.cols.contains c)
    else []
  let baseCols := ["PRODUCT_NAME"] ++ priceCols ++ colorCols ++ skuCols ++ specCols
  let remaining := df.cols.filter (fun c => !(baseCols.contains c))
  let allCols := (baseCols ++ remaining).filter (fun c => df.cols.contains c)
  DF.mk allCols (df.rows.map (selectRowCols allCols))

/-- `SmartColorConsolidator.consolidate_products`: group rows by the
product-line key (insertion order), emit singleton groups via the
single-member branch and larger groups via `consolidate_group`, build a
frame and reorder its columns.  No row sorting happens here. -/
def consolidate_products (df : DF) (product_type : String) : DF :=
  if df.rows.isEmpty then df
  else
    let groups := groupRows df.rows product_type
    let consolidated := groups.map (fun g =>
      if g.2.length = 1 then smart_single_row (g.2.headD []) product_type
      else consolidate_group g.2 product_type)
    if consolidated.isEmpty then DF.mk [] []
    else reorder_columns (toDF consolidated) product_type

/-! ## Colour consolidator (src/consolidate_colors.py) -/

/-- The colour vocabulary of src/consolidate_colors.py (a list there, so
its order is the alternation order of the generated pattern). -/
def ccColors : List String :=
  ["Black", "Blue", "Green", "Pink", "Yellow", "Red", "White", "Purple", "Orange",
   "Space Gray", "Space Grey", "Silver", "Gold", "Rose Gold", "Midnight", "Starlight",
   "Deep Purple", "Pro Raw", "Alpine Green", "Sierra Blue", "Graphite", "Natural Titanium",
   "Blue Titanium", "White Titanium", "Black Titanium"]

/-- One position of the pattern
`\b(?:C1|…|C24)(?:\s+Titanium)?\b` (case-insensitive): alternatives are
tried in list order; the greedy optional `\s+Titanium` is preferred and
backtracks when the trailing boundary fails; returns the consumed length. -/
def tryColorAlts : List (List Char) → List Char → Option Nat
  | [], _ => none
  | a :: rest, s =>
    if caselessIsPrefix a s then
      let s1 := s.drop a.length
      let sp := s1.takeWhile pyIsSpaceChar
      let s2 := s1.dropWhile pyIsSpaceChar
      if !sp.isEmpty && caselessIsPrefix "titanium".data s2 &&
          boundaryAfter (s2.drop 8) then
        some (a.length + sp.length + 8)
      else if boundaryAfter s1 then some a.length
      else tryColorAlts rest s
    else tryColorAlts rest s

/-- Worker for `subColorPattern` (fuel = input length): remove each
leftmost non-overlapping match, boundaries evaluated on the original
string. -/
def subColorFuel : Nat → Option Char → List Char → List Char
  | 0, _, s => s
  | _ + 1, _, [] => []
  | n + 1, prev, c :: t =>
    if boundaryBefore prev then
      match tryColorAlts (ccColors.map String.data) (c :: t) with
      | some len =>
        subColorFuel n ((c :: t).take len).getLast? ((c :: t).drop len)
      | none => c :: subColorFuel n (some c) t
    else c :: subColorFuel n (some c) t

/-- `re.sub(color_pattern, '', product_name, flags=re.IGNORECASE)` of
src/consolidate_colors.py `extract_base_product_info`. -/
def subColorPattern (s : String) : String := ⟨subColorFuel s.data.length none s.data⟩

/-- src/consolidate_colors.py `extract_base_product_info`: strip the
colour vocabulary, the trailing dash, collapse whitespace and trim. -/
def extract_base_product_info (product_name : String) : String :=
  pyStrip (collapseWs (removeTrailingDash (subColorPattern product_name)))

/-- src/consolidate_colors.py `collect_color_variants`: per row, the
colour is the product name minus its base (dashes and whitespace
trimmed); SKUs are collected region-wise.  Returns
(available_colors, sku_variants_us, sku_variants_tw). -/
def collect_color_variants (grp : List Row) : String × String × String :=
  let colors := grp.filterMap (fun r =>
    let name := rowGetStr r "PRODUCT_NAME"
    let base := extract_base_product_info name
    let c1 := pyStrip (removeTrailingDash (removeLeadingDash (pyStrip (pyReplace name base ""))))
    if c1.data.isEmpty then none else some c1)
  let pick : Row → String → List String := fun r k =>
    match rowGet r k with
    | some c => if cellNotna c then [cellPyStr c] else []
    | none => []
  let skusUS := grp.flatMap (fun r => pick r "SKU_US" ++ pick r "SKU")
  let skusTW := grp.flatMap (fun r => pick r "SKU_TW")
  (if !colors.isEmpty then
      String.intercalate ", " (pySortedStrings (dedupeKeepFirst colors))
   else "Multiple Colors",
   String.intercalate ", " skusUS, String.intercalate ", " skusTW)

/-- Rank used to order cells of different Python types; within one run the
group-key columns are homogeneously typed, so only the same-type branches
decide anything. -/
def cellRank : Cell → Nat
  | Cell.str _ => 0
  | Cell.num _ => 1
  | Cell.nan => 2
  | Cell.null => 3

/-- Total boolean order on cells (strings by code point, numbers by
value). -/
def cellLeB (a b : Cell) : Bool :=
  match a, b with
  | Cell.str s, Cell.str t => strLeB s.data t.data
  | Cell.num p, Cell.num q => decide (p ≤ q)
  | _, _ => decide (cellRank a ≤ cellRank b)

/-- Lexicographic boolean order on group-key tuples. -/
def keyLeB : List Cell → List Cell → Bool
  | [], _ => true
  | _ :: _, [] => false
  | a :: as, b :: bs => if a = b then keyLeB as bs else cellLeB a b

/-- Row order by `PRODUCT_NAME` (the final
`sort_values('PRODUCT_NAME')`). -/
def rowNameLe (a b : Row) : Prop :=
  strLeB (rowGetStr a "PRODUCT_NAME").data (rowGetStr b "PRODUCT_NAME").data = true

instance : DecidableRel rowNameLe := fun _ _ => decEq _ _

/-- The column reordering of src/consolidate_colors.py
`consolidate_product_data` (lines 129-151). -/
def ccReorderColumns (df : DF) : DF :=
  let priceCols := pySortedStrings (df.cols.filter (fun c => pyStartsWith "Price_" c))
  let colorCols := ["Available_Colors", "Color_Variants"].filter (fun c => df.cols.contains c)
  let skuCols := pySortedStrings (df.cols.filter (fun c => pyStartsWith "SKU" c))
  let baseCols := ["PRODUCT_NAME"] ++ priceCols ++ colorCols ++ skuCols
  let remaining := df.cols.filter (fun c => !(baseCols.contains c))
  let allCols := (baseCols ++ remaining).filter (fun c => df.cols.contains c)
  DF.mk allCols (df.rows.map (selectRowCols allCols))

/-- src/consolidate_colors.py `consolidate_product_data` (the data
transformation between CSV read and CSV write): derive `BASE_PRODUCT`,
group by base product and prices (pandas `groupby`: NA keys dropped,
groups in sorted key order, members in frame order), consolidate each
group from its first row, drop the helper column, reorder columns, and
sort rows by `PRODUCT_NAME`.  Empty input returns early in the source
(no output file); the empty frame stands in for that. -/
def consolidate_product_data (df : DF) : DF :=
  if df.rows.isEmpty then DF.mk [] []
  else
    let rows1 := df.rows.map (fun r =>
      rowSet r "BASE_PRODUCT"
        (Cell.str (extract_base_product_info (rowGetStr r "PRODUCT_NAME"))))
    let groupCols :=
      if df.cols.contains "Price_US" && df.cols.contains "Price_TW" then
        ["BASE_PRODUCT", "Price_US", "Price_TW"]
      else if df.cols.contains "Price_US" then ["BASE_PRODUCT", "Price_US"]
      else ["BASE_PRODUCT"]
    let keyOf : Row → List Cell := fun r => groupCols.map (fun c => (rowGet r c).getD Cell.nan)
    let valid := rows1.filter (fun r => (keyOf r).all cellNotna)
    let keys := List.insertionSort (fun a b => keyLeB a b = true)
      (dedupeKeepFirst (valid.map keyOf))
    let consolidated := keys.map (fun k =>
      let grp := valid.filter (fun r => keyOf r = k)
      let base := grp.headD []
      let ci := collect_color_variants grp
      let b1 := rowSet base "PRODUCT_NAME" ((rowGet base "BASE_PRODUCT").getD Cell.nan)
      let b2 := rowSet b1 "Available_Colors" (Cell.str ci.1)
      let b3 := rowSet b2 "Color_Variants" (Cell.num grp.length)
      let b4 := if ci.2.1.data.isEmpty then b3 else rowSet b3 "SKU_Variants_US" (Cell.str ci.2.1)
      if ci.2.2.data.isEmpty then b4 else rowSet b4 "SKU_Variants_TW" (Cell.str ci.2.2))
    let df2 := toDF consolidated
    let df3 := DF.mk (df2.cols.filter (fun c => c ≠ "BASE_PRODUCT"))
      (df2.rows.map (fun r => r.filter (fun e => e.1 ≠ "BASE_PRODUCT")))
    let df4 := ccReorderColumns df3
    DF.mk df4.cols (List.insertionSort rowNameLe df4.rows)

/-! ## JSON projector (src/convert_to_json.py `csv_to_json`, the per-row
processing of lines 188-203) -/

/-- Round half to even on integers scaled by one decimal digit: Python
`round(x, 1)` on exact values. -/
def roundHalfEvenZ (y : ℚ) : ℤ :=
  let n := ⌊y⌋
  let f := y - n
  if f < 1/2 then n
  else if 1/2 < f then n + 1
  else if n % 2 = 0 then n else n + 1

/-- Python `round(x, 1)` (ties to even), on exact rationals. -/
def pyRound1 (x : ℚ) : ℚ := (roundHalfEvenZ (x * 10) : ℚ) / 10

/-- `value or 0` on the price cells (`NaN` is truthy in Python and is kept;
`None`, `0` and `''` fall back to `0`). -/
def orZeroCell (c : Cell) : Cell := if cellTruthy c then c else Cell.num 0

/-- `usd_price > 0` for the values reached here: numbers compare, `NaN`
compares false.  (`None` never reaches this test because `or 0` replaced
it; a string price would raise in Python and occurs in no pipeline.) -/
def cellGtZero : Cell → Bool
  | Cell.num q => decide (0 < q)
  | _ => false

/-- `((twd_price / rate - usd_price) / usd_price) * 100`, rounded to one
decimal; `NaN` operands propagate to a `NaN` result as in float
arithmetic. -/
def pdpCell (twd usd : Cell) (rate : ℚ) : Cell :=
  match twd, usd with
  | Cell.num t, Cell.num u => Cell.num (pyRound1 ((t / rate - u) / u * 100))
  | _, _ => Cell.nan

/-- The per-product loop body of src/convert_to_json.py `csv_to_json`
(lines 188-203): add `product_type`; when both price columns exist,
set `price_difference_percent` to the rounded relative difference when
`Price_US > 0` and to `0` otherwise. -/
def process_product (p : Row) (product_type : String) (twRate : ℚ) : Row :=
  let p1 := rowSet p "product_type" (Cell.str product_type)
  if rowHasKey p1 "Price_US" && rowHasKey p1 "Price_TW" then
    let usd := orZeroCell ((rowGet p1 "Price_US").getD Cell.nan)
    let twd := orZeroCell ((rowGet p1 "Price_TW").getD Cell.nan)
    if cellGtZero usd then rowSet p1 "price_difference_percent" (pdpCell twd usd twRate)
    else rowSet p1 "price_difference_percent" (Cell.num 0)
  else p1

/-! ## Concrete scenario inputs -/

/-- iPad merged row "iPad Pro 11-inch - Space Gray" of the consolidation
scenario. -/
def ipadScenarioRow1 : Row :=
  [("SKU", Cell.str "MX1"), ("Price_US", Cell.num 999), ("Price_TW", Cell.num 36900),
   ("PRODUCT_NAME", Cell.str "iPad Pro 11-inch - Space Gray")]

/-- iPad merged row "iPad Pro 11-inch - Silver" of the consolidation
scenario. -/
def ipadScenarioRow2 : Row :=
  [("SKU", Cell.str "MX2"), ("Price_US", Cell.num 999), ("Price_TW", Cell.num 36900),
   ("PRODUCT_NAME", Cell.str "iPad Pro 11-inch - Silver")]

/-- The two-row iPad merged table of the consolidation scenario. -/
def ipadScenarioDF : DF :=
  DF.mk ["SKU", "Price_US", "Price_TW", "PRODUCT_NAME"] [ipadScenarioRow1, ipadScenarioRow2]

/-- C3 counterexample: consolidating the two scenario rows yields one row
with the claimed `PRODUCT_NAME` and `Color_Variants`, but its
`Available_Colors` is NOT `"Silver, Space Gray"`: the extractor also
collects the vocabulary hit `gray` and the positional word `space`, so
four titled colour tokens are joined. -/
theorem claim_C3_counterexample :
    (consolidate_products ipadScenarioDF "iPad").rows.length = 1 ∧
    rowGet ((consolidate_products ipadScenarioDF "iPad").rows.headD []) "Available_Colors" ≠
      some (Cell.str "Silver, Space Gray") := by
  constructor
  · decide
  · decide

/-- C3 amended: the scenario consolidates to exactly one row with
`PRODUCT_NAME = "iPad Pro 11-inch"`, `Color_Variants = 2`, and
`Available_Colors = "Gray, Silver, Space, Space Gray"` (the extracted
tokens include the vocabulary hits "gray" and "space gray" and the
positional words "space", "gray", "silver"; title-cased, de-duplicated,
sorted, comma-joined). -/
theorem claim_C3_amended :
    (consolidate_products ipadScenarioDF "iPad").rows.length = 1 ∧
    rowGet ((consolidate_products ipadScenarioDF "iPad").rows.headD []) "PRODUCT_NAME" =
      some (Cell.str "iPad Pro 11-inch") ∧
    rowGet ((consolidate_products ipadScenarioDF "iPad").rows.headD []) "Available_Colors" =
      some (Cell.str "Gray, Silver, Space, Space Gray") ∧
    rowGet ((consolidate_products ipadScenarioDF "iPad").rows.headD []) "Color_Variants" =
      some (Cell.num 2) ∧
    rowGet ((consolidate_products ipadScenarioDF "iPad").rows.headD []) "SKU_Variants_US" =
      some (Cell.str "MX1, MX2") := by
  refine ⟨by decide, by decide, by decide, by decide, by decide⟩

/-! ## C5: the chip patterns of the two Mac spec extractors -/

/-- All combinations of vendor word, model, qualifier and suffix from the
chip pattern family, paired with the chip value the enhanced extractor
should report. -/
def chipBattery : List (String × String) :=
  ["", "apple "].flatMap (fun v =>
    ["m1", "m2", "m3", "m4"].flatMap (fun m =>
      ["", " pro", " max", " ultra"].flatMap (fun q =>
        [" chip", " processor"].map (fun s => (v ++ m ++ q ++ s, pyUpper (m ++ q))))))

/-- C5 counterexample: the spec extractor of src/mac.py does NOT recognise
the `processor` suffix — on the text "M2 processor" its chip field is
empty, contradicting the claimed non-empty chip field. -/
theorem claim_C5_counterexample :
    ¬ (extract_specs_from_text "M2 processor").chip ≠ "" := by
  decide

/-- C5 amended: the chip patterns of src/enhanced_mac_scraper.py recognise
`M1`–`M4` with an optional `pro`/`max`/`ultra` qualifier, with or without
the vendor word `Apple`, with either the `chip` or the `processor` suffix
(all 64 combinations yield the expected non-empty chip value, in
particular "M2 processor" yields "M2"); the extractor of src/mac.py
accepts only the `chip` suffix: every `chip`-suffixed combination yields
the same non-empty value, while "M2 processor" yields the empty chip. -/
theorem claim_C5_amended :
    (chipBattery.all (fun p =>
      enhanced_extract_chip p.1 == p.2 && !p.2.data.isEmpty)) = true ∧
    ((chipBattery.filter (fun p => containsSub "chip".data p.1.data)).all (fun p =>
      (extract_specs_from_text p.1).chip == pyReplace p.2 "  " " ")) = true ∧
    enhanced_extract_chip "M2 processor" = "M2" ∧
    (extract_specs_from_text "M2 processor").chip = "" ∧
    (extract_specs_from_text "M2 chip").chip = "M2" := by
  refine ⟨by decide, by decide, by decide, by decide, by decide⟩

/-! ## Basic row lemmas -/

theorem rowGet_cons (k : String) (v : Cell) (t : Row) (q : String) :
    rowGet ((k, v) :: t) q = if k = q then some v else rowGet t q := by
  simp only [rowGet, List.find?]
  by_cases h : k = q
  · simp [h]
  · simp [h, (by simpa using h : (k == q) = false)]

theorem rowGet_rowSet_self (r : Row) (k : String) (v : Cell) :
    rowGet (rowSet r k v) k = some v := by
  induction r with
  | nil => simp [rowSet, rowGet_cons]
  | cons e t ih =>
    rcases e with ⟨ek, ev⟩
    by_cases h : ek = k
    · simp [rowSet, h, rowGet_cons]
    · simp only [rowSet, h, if_false, rowGet_cons, ih]

theorem rowGet_rowSet_ne (r : Row) (k q : String) (v : Cell) (h : q ≠ k) :
    rowGet (rowSet r k v) q = rowGet r q := by
  have hkq : ¬ (k = q) := fun hh => h hh.symm
  induction r with
  | nil => simp [rowSet, rowGet_cons, hkq]
  | cons e t ih =>
    rcases e with ⟨ek, ev⟩
    by_cases he : ek = k
    · subst he
      simp [rowSet, rowGet_cons, hkq]
    · simp only [rowSet, he, if_false, rowGet_cons, ih]

theorem rowHasKey_rowSet (r : Row) (k q : String) (v : Cell) :
    rowHasKey (rowSet r k v) q = (q == k || rowHasKey r q) := by
  by_cases h : q = k
  · subst h
    simp [rowHasKey, rowGet_rowSet_self]
  · simp [rowHasKey, rowGet_rowSet_ne r k q v h, h]

/-- `applyVariants` only touches the keys of the variants dict. -/
theorem rowGet_applyVariants_of_notmem (vars : Row) (r : Row) (k : String)
    (h : ∀ e ∈ vars, e.1 ≠ k) :
    rowGet (applyVariants r vars) k = rowGet r k := by
  induction vars generalizing r with
  | nil => rfl
  | cons e t ih =>
    have he : e.1 ≠ k := h e (List.mem_cons_self e t)
    have ht : ∀ e' ∈ t, e'.1 ≠ k := fun e' hm => h e' (List.mem_cons_of_mem e hm)
    show rowGet (applyVariants (rowSet r e.1 e.2) t) k = rowGet r k
    rw [ih (rowSet r e.1 e.2) ht, rowGet_rowSet_ne r e.1 k e.2 (fun hh => he hh.symm)]

/-- The keys emitted by `collect_sku_variants` are among the two
`SKU_Variants_*` columns. -/
theorem collect_sku_variants_keys (items : List Row) (pt : String) :
    ∀ e ∈ collect_sku_variants items pt,
      e.1 = "SKU_Variants_US" ∨ e.1 = "SKU_Variants_TW" := by
  intro e he
  unfold collect_sku_variants at he
  rcases List.mem_append.mp he with h | h
  · left
    repeat' split at h
    all_goals first
      | (rcases List.mem_singleton.mp h with rfl; rfl)
      | exact absurd h (List.not_mem_nil e)
  · right
    repeat' split at h
    all_goals first
      | (rcases List.mem_singleton.mp h with rfl; rfl)
      | exact absurd h (List.not_mem_nil e)

/-! ## C7: the name standardizer -/

/-- C7 confirmed: `standardize_product_name` is a total Lean function
(never raises by construction); `None` and `""` map to `""`; the sample
name maps to a key containing the model, capacity and colour tokens; and
when no model, capacity or colour part is recognised the result is the
lower-cased name with its spaces removed (the fallback of the source). -/
theorem claim_C7_standardizer :
    standardizeOpt none = "" ∧
    standardize_product_name "" = "" ∧
    standardize_product_name "iPhone 16 Pro 256GB Black Titanium" =
      "iphone16pro_256gb_blacktitanium" ∧
    (containsSub "iphone16pro".data "iphone16pro_256gb_blacktitanium".data &&
     containsSub "256gb".data "iphone16pro_256gb_blacktitanium".data &&
     containsSub "blacktitanium".data "iphone16pro_256gb_blacktitanium".data) = true ∧
    ∀ name : String,
      searchIphoneModel (pyLower name).data = none →
      searchCapacity (pyLower name).data = none →
      (pyStrip (pyLower name)).data.filter (fun c => c ≠ ' ') = [] →
      standardize_product_name name = ⟨(pyLower name).data.filter (fun c => c ≠ ' ')⟩ := by
  refine ⟨by decide, by decide, by decide, by decide, ?_⟩
  intro name hm hs hc
  unfold standardize_product_name
  by_cases hemp : name.data.isEmpty
  · have hnil : name.data = [] := by simpa using hemp
    simp [hemp, pyLower, hnil]
  · simp only [hemp, if_false, hm, hs, hc]
    simp

/-- Witness for the universal part of C7: the tab-only name recognises no
model, capacity or colour and falls back to the space-free lower-cased
name. -/
theorem claim_C7_standardizer_witness :
    standardize_product_name "\t" = "\t" := by
  have h := (claim_C7_standardizer).2.2.2.2 "\t" (by decide) (by decide) (by decide)
  exact h.trans (by decide)

/-! ## C8: singleton groups in the smart consolidator -/

/-- One-row iPad-style merged table used to exhibit the extra
`SKU_Variants_US` field added on singleton groups. -/
def singletonScenarioRow : Row :=
  [("SKU", Cell.str "S1"), ("Price_US", Cell.num 599), ("Price_TW", Cell.num 19900),
   ("PRODUCT_NAME", Cell.str "iPad mini Wi-Fi 128GB")]

/-- C8 counterexample: consolidating a singleton group does not leave the
row "unchanged except for the added fields `Available_Colors` and
`Color_Variants`" — a third field, `SKU_Variants_US`, is also added
(collected from the row's SKU). -/
theorem claim_C8_counterexample :
    rowGet ((consolidate_products
        (DF.mk ["SKU", "Price_US", "Price_TW", "PRODUCT_NAME"] [singletonScenarioRow])
        "ipad").rows.headD []) "SKU_Variants_US" = some (Cell.str "S1") ∧
    rowGet singletonScenarioRow "SKU_Variants_US" = none ∧
    "SKU_Variants_US" ≠ "Available_Colors" ∧ "SKU_Variants_US" ≠ "Color_Variants" := by
  exact ⟨by decide, by decide, by decide, by decide⟩

/-- C8 amended: on a singleton group the consolidator (the single-member
branch of `consolidate_products`, embedded as `smart_single_row`) modifies
no existing field other than the columns it sets: every key outside
`Available_Colors`, `Color_Variants` and the two `SKU_Variants_*` columns
keeps its value, `Available_Colors` becomes `"Single Option"` and
`Color_Variants` becomes `1`. -/
theorem claim_C8_amended (r : Row) (pt : String) (k : String)
    (h1 : k ≠ "Available_Colors") (h2 : k ≠ "Color_Variants")
    (h3 : k ≠ "SKU_Variants_US") (h4 : k ≠ "SKU_Variants_TW") :
    rowGet (smart_single_row r pt) k = rowGet r k ∧
    rowGet (smart_single_row r pt) "Available_Colors" = some (Cell.str "Single Option") ∧
    rowGet (smart_single_row r pt) "Color_Variants" = some (Cell.num 1) := by
  have hvars : ∀ e ∈ collect_sku_variants [r] pt, e.1 ≠ k := by
    intro e he
    rcases collect_sku_variants_keys [r] pt e he with h | h
    · rw [h]; exact fun hh => h3 hh.symm
    · rw [h]; exact fun hh => h4 hh.symm
  have hAC : ∀ e ∈ collect_sku_variants [r] pt, e.1 ≠ "Available_Colors" := by
    intro e he
    rcases collect_sku_variants_keys [r] pt e he with h | h <;> rw [h] <;> decide
  have hCV : ∀ e ∈ collect_sku_variants [r] pt, e.1 ≠ "Color_Variants" := by
    intro e he
    rcases collect_sku_variants_keys [r] pt e he with h | h <;> rw [h] <;> decide
  refine ⟨?_, ?_, ?_⟩
  · rw [smart_single_row, rowGet_applyVariants_of_notmem _ _ _ hvars,
      rowGet_rowSet_ne _ _ _ _ h2, rowGet_rowSet_ne _ _ _ _ h1]
  · rw [smart_single_row, rowGet_applyVariants_of_notmem _ _ _ hAC,
      rowGet_rowSet_ne _ _ _ _ (by decide), rowGet_rowSet_self]
  · rw [smart_single_row, rowGet_applyVariants_of_notmem _ _ _ hCV, rowGet_rowSet_self]

/-- Witness for C8: the scenario row keeps its price under singleton
consolidation while the two sentinel fields are set. -/
theorem claim_C8_amended_witness :
    rowGet (smart_single_row singletonScenarioRow "ipad") "Price_US" =
      rowGet singletonScenarioRow "Price_US" ∧
    rowGet (smart_single_row singletonScenarioRow "ipad") "Available_Colors" =
      some (Cell.str "Single Option") ∧
    rowGet (smart_single_row singletonScenarioRow "ipad") "Color_Variants" =
      some (Cell.num 1) :=
  claim_C8_amended singletonScenarioRow "ipad" "Price_US"
    (by decide) (by decide) (by decide) (by decide)

/-! ## C9 and C10: the JSON projector row processing -/

/-- The scenario row of C9. -/
def jsonScenarioRow : Row :=
  [("SKU", Cell.str "T1"), ("Price_US", Cell.num 999), ("Price_TW", Cell.num 31900),
   ("PRODUCT_NAME", Cell.str "X")]

/-- C9 confirmed: whenever a processed row carries numeric `Price_US` and
`Price_TW`, the emitted `price_difference_percent` equals
`round(((Price_TW / rate - Price_US) / Price_US) * 100, 1)` when
`Price_US > 0` and `0` otherwise; on the scenario row with rate `31.5`
the value is `1.4` (= `7/5`). -/
theorem claim_C9_price_difference :
    (∀ (p : Row) (pt : String) (rate u t : ℚ),
      rowGet p "Price_US" = some (Cell.num u) →
      rowGet p "Price_TW" = some (Cell.num t) →
      ((0 < u →
        rowGet (process_product p pt rate) "price_difference_percent" =
          some (Cell.num (pyRound1 ((t / rate - u) / u * 100)))) ∧
       (¬ 0 < u →
        rowGet (process_product p pt rate) "price_difference_percent" =
          some (Cell.num 0)))) ∧
    pyRound1 ((31900 / (63 / 2 : ℚ) - 999) / 999 * 100) = 7 / 5 := by
  constructor
  · intro p pt rate u t hu ht
    have hu1 : rowGet (rowSet p "product_type" (Cell.str pt)) "Price_US" =
        some (Cell.num u) := by
      rw [rowGet_rowSet_ne _ _ _ _ (by decide)]; exact hu
    have ht1 : rowGet (rowSet p "product_type" (Cell.str pt)) "Price_TW" =
        some (Cell.num t) := by
      rw [rowGet_rowSet_ne _ _ _ _ (by decide)]; exact ht
    have hkey : (rowHasKey (rowSet p "product_type" (Cell.str pt)) "Price_US" &&
        rowHasKey (rowSet p "product_type" (Cell.str pt)) "Price_TW") = true := by
      simp [rowHasKey, hu1, ht1]
    constructor
    · intro hupos
      have hune : u ≠ 0 := ne_of_gt hupos
      have horz_u : orZeroCell (Cell.num u) = Cell.num u := by
        simp [orZeroCell, cellTruthy, hune]
      have hgt : cellGtZero (Cell.num u) = true := by simp [cellGtZero, hupos]
      simp only [process_product, hkey, if_true, hu1, ht1, Option.getD_some, horz_u, hgt,
        rowGet_rowSet_self]
      by_cases htz : t = 0
      · subst htz
        simp [orZeroCell, cellTruthy, pdpCell]
      · have horz_t : orZeroCell (Cell.num t) = Cell.num t := by
          simp [orZeroCell, cellTruthy, htz]
        rw [horz_t]
        rfl
    · intro hnot
      have hgt : cellGtZero (orZeroCell (Cell.num u)) = false := by
        by_cases huz : u = 0
        · subst huz; simp [orZeroCell, cellTruthy, cellGtZero]
        · simp [orZeroCell, cellTruthy, huz, cellGtZero]
          exact le_of_not_lt hnot
      simp only [process_product, hkey, if_true, hu1, ht1, Option.getD_some, hgt,
        Bool.false_eq_true, if_false, rowGet_rowSet_self]
  · unfold pyRound1 roundHalfEvenZ
    norm_num

/-- Witness for C9 at the scenario row and rate `31.5`: the emitted value
is exactly `1.4`. -/
theorem claim_C9_price_difference_witness :
    rowGet (process_product jsonScenarioRow "ipad" (63 / 2)) "price_difference_percent" =
      some (Cell.num (7 / 5)) := by
  have h := ((claim_C9_price_difference).1 jsonScenarioRow "ipad" (63 / 2) 999 31900
    (by decide) (by decide)).1 (by norm_num)
  rw [h, (claim_C9_price_difference).2]

/-- C10 confirmed: `price_difference_percent` is added exactly when both
price columns exist (for rows not already carrying that column, as no
pipeline produces it); without both columns the row is emitted with only
`product_type` added; and a `None` price is treated as `0` (yielding a `0`
difference, not an exception). -/
theorem claim_C10_pdp_presence (p : Row) (pt : String) (rate : ℚ) :
    (rowHasKey p "price_difference_percent" = false →
      (rowHasKey (process_product p pt rate) "price_difference_percent" = true ↔
        (rowHasKey p "Price_US" = true ∧ rowHasKey p "Price_TW" = true))) ∧
    (¬ (rowHasKey p "Price_US" = true ∧ rowHasKey p "Price_TW" = true) →
      process_product p pt rate = rowSet p "product_type" (Cell.str pt)) ∧
    (rowGet p "Price_US" = some Cell.null → rowHasKey p "Price_TW" = true →
      rowGet (process_product p pt rate) "price_difference_percent" =
        some (Cell.num 0)) := by
  have hUS : rowHasKey (rowSet p "product_type" (Cell.str pt)) "Price_US" =
      rowHasKey p "Price_US" := by
    simp [rowHasKey, rowGet_rowSet_ne p "product_type" "Price_US" _ (by decide)]
  have hTW : rowHasKey (rowSet p "product_type" (Cell.str pt)) "Price_TW" =
      rowHasKey p "Price_TW" := by
    simp [rowHasKey, rowGet_rowSet_ne p "product_type" "Price_TW" _ (by decide)]
  refine ⟨?_, ?_, ?_⟩
  · intro hno
    constructor
    · intro hyes
      by_contra hneg
      have hcond : (rowHasKey (rowSet p "product_type" (Cell.str pt)) "Price_US" &&
          rowHasKey (rowSet p "product_type" (Cell.str pt)) "Price_TW") = false := by
        rw [hUS, hTW]
        cases h1 : rowHasKey p "Price_US" <;> cases h2 : rowHasKey p "Price_TW" <;>
          simp_all
      simp only [process_product, hcond, Bool.false_eq_true, if_false] at hyes
      rw [rowHasKey, rowGet_rowSet_ne p "product_type" _ _ (by decide)] at hyes
      rw [rowHasKey] at hno
      rw [hno] at hyes
      exact Bool.false_ne_true hyes
    · rintro ⟨h1, h2⟩
      have hcond : (rowHasKey (rowSet p "product_type" (Cell.str pt)) "Price_US" &&
          rowHasKey (rowSet p "product_type" (Cell.str pt)) "Price_TW") = true := by
        rw [hUS, hTW, h1, h2]; rfl
      simp only [process_product, hcond, if_true]
      split
      · simp [rowHasKey, rowGet_rowSet_self]
      · simp [rowHasKey, rowGet_rowSet_self]
  · intro hneg
    have hcond : (rowHasKey (rowSet p "product_type" (Cell.str pt)) "Price_US" &&
        rowHasKey (rowSet p "product_type" (Cell.str pt)) "Price_TW") = false := by
      rw [hUS, hTW]
      cases h1 : rowHasKey p "Price_US" <;> cases h2 : rowHasKey p "Price_TW" <;>
        simp_all
    simp [process_product, hcond]
  · intro hnull hTW2
    have hnull1 : rowGet (rowSet p "product_type" (Cell.str pt)) "Price_US" =
        some Cell.null := by
      rw [rowGet_rowSet_ne _ _ _ _ (by decide)]; exact hnull
    have hcond : (rowHasKey (rowSet p "product_type" (Cell.str pt)) "Price_US" &&
        rowHasKey (rowSet p "product_type" (Cell.str pt)) "Price_TW") = true := by
      rw [hUS, hTW, hTW2]
      simp [rowHasKey, hnull]
    have hgt : cellGtZero (orZeroCell Cell.null) = false := by decide
    simp only [process_product, hcond, if_true, hnull1, Option.getD_some, hgt,
      Bool.false_eq_true, if_false, rowGet_rowSet_self]

/-- Witness for C10: a row lacking `Price_TW` gains only `product_type`;
a row with a `None` `Price_US` yields a `0` difference. -/
theorem claim_C10_pdp_presence_witness :
    process_product [("SKU", Cell.str "A"), ("Price_US", Cell.num 5)] "mac" 30 =
      rowSet [("SKU", Cell.str "A"), ("Price_US", Cell.num 5)] "product_type"
        (Cell.str "mac") ∧
    rowGet (process_product [("Price_US", Cell.null), ("Price_TW", Cell.num 100)]
        "mac" 30) "price_difference_percent" = some (Cell.num 0) := by
  constructor
  · exact (claim_C10_pdp_presence [("SKU", Cell.str "A"), ("Price_US", Cell.num 5)]
      "mac" 30).2.1 (by decide)
  · exact (claim_C10_pdp_presence [("Price_US", Cell.null), ("Price_TW", Cell.num 100)]
      "mac" 30).2.2 (by decide) (by decide)

/-! ## C6: the spec-to-product matcher -/

/-- C6 confirmed: the source translation of `match_products_with_specs`
coincides with the specification's description (empty spec list gives
all-empty spec records; otherwise the i-th price-sorted product receives
storage-sorted spec variant `i mod len(specVariants)`). -/
theorem claim_C6_matcher_refines_spec (products : List MacProduct)
    (specVariants : List MacSpecs) :
    match_products_with_specs products specVariants =
      matchSpecsToProducts_spec products specVariants := by
  unfold match_products_with_specs matchSpecsToProducts_spec
  by_cases hs : specVariants.isEmpty
  · simp [hs]
  · have hlen : (sortSpecsByStorage specVariants).length = specVariants.length :=
      (List.perm_insertionSort _ _).length_eq
    have hne : (sortSpecsByStorage specVariants).isEmpty = false := by
      cases specVariants with
      | nil => exact absurd rfl hs
      | cons a t =>
        have : (sortSpecsByStorage (a :: t)).length = t.length + 1 := by
          rw [hlen]; rfl
        cases hh : sortSpecsByStorage (a :: t) with
        | nil => rw [hh] at this; exact absurd this.symm (Nat.succ_ne_zero _)
        | cons b u => rfl
    simp [hs, hne, hlen]

/-! ## C4: output row ordering of the consolidators -/

theorem char_toNat_injective {a b : Char} (h : a.toNat = b.toNat) : a = b := by
  have := congrArg Char.ofNat h
  rwa [Char.ofNat_toNat, Char.ofNat_toNat] at this

theorem strLeB_total : ∀ a b : List Char, strLeB a b = true ∨ strLeB b a = true := by
  intro a
  induction a with
  | nil => intro b; exact Or.inl rfl
  | cons x xs ih =>
    intro b
    cases b with
    | nil => exact Or.inr rfl
    | cons y ys =>
      by_cases hxy : x = y
      · subst hxy
        rcases ih ys with h | h
        · exact Or.inl (by simp [strLeB, h])
        · exact Or.inr (by simp [strLeB, h])
      · have hyx : ¬ y = x := fun hh => hxy hh.symm
        rcases Nat.le_total x.toNat y.toNat with h | h
        · exact Or.inl (by simp [strLeB, hxy, chLeB, h])
        · exact Or.inr (by simp [strLeB, hyx, chLeB, h])

theorem strLeB_trans :
    ∀ a b c : List Char, strLeB a b = true → strLeB b c = true → strLeB a c = true := by
  intro a
  induction a with
  | nil => intro b c _ _; rfl
  | cons x xs ih =>
    intro b c h1 h2
    cases b with
    | nil => simp [strLeB] at h1
    | cons y ys =>
      cases c with
      | nil => simp [strLeB] at h2
      | cons z zs =>
        by_cases hxy : x = y
        · subst hxy
          by_cases hyz : x = z
          · subst hyz
            simp only [strLeB, if_pos rfl] at h1 h2 ⊢
            exact ih ys zs h1 h2
          · simp only [strLeB, if_pos rfl] at h1
            simp only [strLeB, hyz, if_false] at h2 ⊢
            exact h2
        · by_cases hyz : y = z
          · subst hyz
            simp only [strLeB, hxy, if_false] at h1 ⊢
            exact h1
          · simp only [strLeB, hxy, hyz, if_false] at h1 h2
            have hle : x.toNat ≤ z.toNat := le_trans (by simpa [chLeB] using h1)
              (by simpa [chLeB] using h2)
            by_cases hxz : x = z
            · exfalso
              subst hxz
              have h1n : x.toNat ≤ y.toNat := by simpa [chLeB] using h1
              have h2n : y.toNat ≤ x.toNat := by simpa [chLeB] using h2
              exact hxy (char_toNat_injective (le_antisymm h1n h2n))
            · simp [strLeB, hxz, chLeB, hle]

/-- The two-row table whose smart-consolidated output is not sorted. -/
def unsortedScenarioDF : DF :=
  DF.mk ["SKU", "PRODUCT_NAME"]
    [[("SKU", Cell.str "Z1"), ("PRODUCT_NAME", Cell.str "Z Pad - Blue")],
     [("SKU", Cell.str "A1"), ("PRODUCT_NAME", Cell.str "A Pad - Red")]]

/-- C4 counterexample: `SmartColorConsolidator.consolidate_products` (the
consolidator that writes the `*_consolidated.csv` tables of the pipeline)
emits groups in first-appearance order and never sorts: a table whose
rows arrive as "Z Pad - Blue", "A Pad - Red" is consolidated to rows in
that same order, which is not ascending by `PRODUCT_NAME`. -/
theorem claim_C4_counterexample :
    ((consolidate_products unsortedScenarioDF "ipad").rows.map
        (fun r => rowGetStr r "PRODUCT_NAME")) = ["Z Pad - Blue", "A Pad - Red"] ∧
    ¬ List.Sorted rowNameLe (consolidate_products unsortedScenarioDF "ipad").rows := by
  exact ⟨by decide, by decide⟩

/-- C4 amended: the sorted output ordering holds for the other
consolidator, src/consolidate_colors.py `consolidate_product_data`, whose
last step sorts by `PRODUCT_NAME`: its output rows are always ascending
under the locale-naive code-point string order.  (The smart consolidator
leaves rows in group first-appearance order, per the counterexample.) -/
theorem claim_C4_amended (df : DF) :
    List.Sorted rowNameLe (consolidate_product_data df).rows := by
  haveI : IsTotal Row rowNameLe :=
    ⟨fun a b => strLeB_total (rowGetStr a "PRODUCT_NAME").data
      (rowGetStr b "PRODUCT_NAME").data⟩
  haveI : IsTrans Row rowNameLe :=
    ⟨fun a b c => strLeB_trans (rowGetStr a "PRODUCT_NAME").data
      (rowGetStr b "PRODUCT_NAME").data (rowGetStr c "PRODUCT_NAME").data⟩
  by_cases h : df.rows.isEmpty
  · unfold consolidate_product_data
    rw [if_pos h]
    exact List.sorted_nil
  · unfold consolidate_product_data
    rw [if_neg h]
    exact List.sorted_insertionSort rowNameLe _

/-! ## Lemmas about the merge building blocks (towards C1 and C2) -/

theorem rowGet_append_of_isSome (l x : Row) (k : String) (h : (rowGet l k).isSome) :
    rowGet (l ++ x) k = rowGet l k := by
  unfold rowGet at h ⊢
  rw [List.find?_append]
  cases hf : l.find? (fun e => e.1 == k) with
  | none => rw [hf] at h; simp at h
  | some e => simp [hf]

theorem rowGet_append_of_none (l x : Row) (k : String) (h : rowGet l k = none) :
    rowGet (l ++ x) k = rowGet x k := by
  unfold rowGet at h ⊢
  rw [List.find?_append]
  cases hf : l.find? (fun e => e.1 == k) with
  | none => simp
  | some e => rw [hf] at h; simp at h

theorem rowGet_append_of_keys_ne (l x : Row) (k : String) (h : ∀ e ∈ l, e.1 ≠ k) :
    rowGet (l ++ x) k = rowGet x k := by
  apply rowGet_append_of_none
  unfold rowGet
  rw [List.find?_eq_none.mpr]
  · rfl
  · intro e he
    simpa using h e he

theorem rowGet_selectRowCols_mem (cols : List String) (r : Row) (k : String)
    (h : k ∈ cols) :
    rowGet (selectRowCols cols r) k = some ((rowGet r k).getD Cell.nan) := by
  induction cols with
  | nil => exact absurd h (List.not_mem_nil k)
  | cons c t ih =>
    show rowGet ((c, (rowGet r c).getD Cell.nan) :: selectRowCols t r) k = _
    rw [rowGet_cons]
    by_cases hc : c = k
    · subst hc; simp
    · rw [if_neg hc]
      rcases List.mem_cons.mp h with h1 | h1
      · exact absurd h1.symm hc
      · exact ih h1

theorem rowGet_selectRowCols_not_mem (cols : List String) (r : Row) (k : String)
    (h : k ∉ cols) : rowGet (selectRowCols cols r) k = none := by
  induction cols with
  | nil => rfl
  | cons c t ih =>
    show rowGet ((c, (rowGet r c).getD Cell.nan) :: selectRowCols t r) k = _
    have hck : ¬ c = k := fun hh => h (by rw [hh]; exact List.mem_cons_self k t)
    rw [rowGet_cons, if_neg hck]
    exact ih (fun hh => h (List.mem_cons_of_mem c hh))

theorem rowGet_renameRow_of_ne (ren : List (String × String)) (r : Row) (k : String)
    (hsrc : ∀ p ∈ ren, p.1 ≠ k) (htgt : ∀ p ∈ ren, p.2 ≠ k) :
    rowGet (renameRow ren r) k = rowGet r k := by
  induction r with
  | nil => rfl
  | cons e t ih =>
    show rowGet ((match ren.find? (fun p => p.1 == e.1) with
      | some p => (p.2, e.2)
      | none => e) :: renameRow ren t) k = rowGet (e :: t) k
    cases hf : ren.find? (fun p => p.1 == e.1) with
    | none =>
      rcases e with ⟨ek, ev⟩
      rw [rowGet_cons, rowGet_cons, ih]
    | some p =>
      have hp := List.mem_of_find?_eq_some hf
      have hpe : p.1 = e.1 := by simpa using List.find?_some hf
      rcases e with ⟨ek, ev⟩
      have hekk : ¬ ek = k := by
        have := hsrc p hp
        rw [hpe] at this
        exact this
      rw [rowGet_cons, rowGet_cons, if_neg (htgt p hp), if_neg hekk, ih]

/-- Renaming a single column: the new name reads what the old name held,
provided the row does not already use the new name. -/
theorem rowGet_renameRow_target (a b : String) (r : Row)
    (hb : ∀ e ∈ r, e.1 ≠ b) :
    rowGet (renameRow [(a, b)] r) b = rowGet r a := by
  induction r with
  | nil => rfl
  | cons e t ih =>
    rcases e with ⟨ek, ev⟩
    have hneb : ek ≠ b := hb (ek, ev) (List.mem_cons_self _ t)
    have iht := ih (fun e' he' => hb e' (List.mem_cons_of_mem _ he'))
    by_cases hek : a = ek
    · subst hek
      have hstep : renameRow [(a, b)] ((a, ev) :: t) = (b, ev) :: renameRow [(a, b)] t := by
        simp [renameRow, List.find?]
      rw [hstep, rowGet_cons, if_pos rfl, rowGet_cons, if_pos rfl]
    · have hbeq : (a == ek) = false := beq_eq_false_iff_ne.mpr hek
      have hstep : renameRow [(a, b)] ((ek, ev) :: t) = (ek, ev) :: renameRow [(a, b)] t := by
        simp [renameRow, List.find?, hbeq]
      rw [hstep, rowGet_cons, if_neg hneb, rowGet_cons, if_neg (fun hh => hek hh.symm), iht]

theorem rowGet_fillCell_self (col : String) (v : Cell) (r : Row) :
    rowGet (fillCell col v r) col =
      match rowGet r col with
      | some Cell.nan => some v
      | o => o := by
  unfold fillCell
  cases ho : rowGet r col with
  | none => simp [ho]
  | some c =>
    cases c with
    | nan => simp [ho, rowGet_rowSet_self]
    | str s => simp [ho]
    | num q => simp [ho]
    | null => simp [ho]

theorem rowGet_fillCell_ne (col : String) (v : Cell) (r : Row) (k : String)
    (h : k ≠ col) : rowGet (fillCell col v r) k = rowGet r k := by
  unfold fillCell
  cases ho : rowGet r col with
  | none => rfl
  | some c =>
    cases c with
    | nan => exact rowGet_rowSet_ne r col k v h
    | str s => rfl
    | num q => rfl
    | null => rfl

/-- `fillna` on one column does not change the values of another column. -/
theorem map_rowGet_fillCol (col : String) (v : Cell) (rows : List Row) (k : String)
    (h : k ≠ col) :
    (fillCol col v rows).map (fun r => rowGet r k) = rows.map (fun r => rowGet r k) := by
  unfold fillCol
  rw [List.map_map]
  exact List.map_congr_left (fun r _ => rowGet_fillCell_ne col v r k h)

theorem dedupByAux_subset (key : String) :
    ∀ (l : List Row) (seen : List (Option Cell)) (r : Row),
      r ∈ dedupByAux key l seen → r ∈ l := by
  intro l
  induction l with
  | nil => intro seen r h; exact absurd h (List.not_mem_nil r)
  | cons a t ih =>
    intro seen r h
    unfold dedupByAux at h
    split at h
    · exact List.mem_cons_of_mem a (ih seen r h)
    · rcases List.mem_cons.mp h with rfl | hm
      · exact List.mem_cons_self r t
      · exact List.mem_cons_of_mem a (ih _ r hm)

theorem dedupByAux_keys (key : String) :
    ∀ (l : List Row) (seen : List (Option Cell)),
      ((dedupByAux key l seen).map (fun r => rowGet r key)).Nodup ∧
      ∀ c ∈ (dedupByAux key l seen).map (fun r => rowGet r key), c ∉ seen := by
  intro l
  induction l with
  | nil => intro seen; exact ⟨List.nodup_nil, fun c hc => absurd hc (List.not_mem_nil c)⟩
  | cons a t ih =>
    intro seen
    unfold dedupByAux
    split
    · exact ih seen
    · rename_i hmem
      have hnotseen : rowGet a key ∉ seen := by simpa using hmem
      rcases ih (rowGet a key :: seen) with ⟨ihn, ihs⟩
      constructor
      · rw [List.map_cons, List.nodup_cons]
        refine ⟨?_, ihn⟩
        intro hin
        exact (ihs _ hin) (List.mem_cons_self _ seen)
      · intro c hc
        rw [List.map_cons] at hc
        rcases List.mem_cons.mp hc with rfl | hin
        · exact hnotseen
        · intro hcs
          exact (ihs c hin) (List.mem_cons_of_mem _ hcs)

theorem dedupByAux_keys_mem (key : String) :
    ∀ (l : List Row) (seen : List (Option Cell)) (c : Option Cell),
      c ∈ (dedupByAux key l seen).map (fun r => rowGet r key) ↔
        (c ∈ l.map (fun r => rowGet r key) ∧ c ∉ seen) := by
  intro l
  induction l with
  | nil => intro seen c; simp [dedupByAux]
  | cons a t ih =>
    intro seen c
    unfold dedupByAux
    split
    · rename_i hmem
      have hseen : rowGet a key ∈ seen := by simpa using hmem
      rw [ih, List.map_cons]
      constructor
      · rintro ⟨h1, h2⟩
        exact ⟨List.mem_cons_of_mem _ h1, h2⟩
      · rintro ⟨h1, h2⟩
        rcases List.mem_cons.mp h1 with rfl | hin
        · exact absurd hseen h2
        · exact ⟨hin, h2⟩
    · rename_i hmem
      have hnotseen : rowGet a key ∉ seen := by simpa using hmem
      rw [List.map_cons, List.map_cons]
      constructor
      · intro h
        rcases List.mem_cons.mp h with rfl | hin
        · exact ⟨List.mem_cons_self _ _, hnotseen⟩
        · rcases (ih _ c).mp hin with ⟨h1, h2⟩
          have h2' : c ∉ seen := fun hh => h2 (List.mem_cons_of_mem _ hh)
          exact ⟨List.mem_cons_of_mem _ h1, h2'⟩
      · rintro ⟨h1, h2⟩
        rcases List.mem_cons.mp h1 with rfl | hin
        · exact List.mem_cons_self _ _
        · by_cases hceq : c = rowGet a key
          · subst hceq; exact List.mem_cons_self _ _
          · refine List.mem_cons_of_mem _ ((ih _ c).mpr ⟨hin, ?_⟩)
            intro hh
            rcases List.mem_cons.mp hh with h3 | h3
            · exact hceq h3
            · exact h2 h3

/-- Key column of the rows of an outer join: left keys followed by the
unmatched right keys, provided every left row carries the key column. -/
theorem outerJoin_keys (key : String) (lCols rCols : List String) (L R : List Row)
    (hL : ∀ l ∈ L, (rowGet l key).isSome) :
    (outerJoin key lCols rCols L R).map (fun r => rowGet r key) =
      L.map (fun r => rowGet r key) ++
      (R.filter (fun r => !(L.any (fun l => rowGet l key == rowGet r key)))).map
        (fun r => rowGet r key) := by
  unfold outerJoin
  rw [List.map_append, List.map_map, List.map_map]
  congr 1
  · apply List.map_congr_left
    intro l hl
    simp only [Function.comp]
    cases hf : R.find? (fun r => rowGet r key == rowGet l key) with
    | none => exact rowGet_append_of_isSome _ _ _ (hL l hl)
    | some r => exact rowGet_append_of_isSome _ _ _ (hL l hl)
  · apply List.map_congr_left
    intro r _
    simp only [Function.comp]
    apply rowGet_append_of_keys_ne
    intro e he
    rcases List.mem_map.mp he with ⟨c, hc, rfl⟩
    simpa using (List.mem_filter.mp hc).2

/-- `filter` commutes with `map` when the predicate factors through the
map. -/
theorem filter_map_comm {α β : Type} (f : α → β) (p : β → Bool) (l : List α) :
    (l.map f).filter p = (l.filter (fun a => p (f a))).map f := by
  induction l with
  | nil => rfl
  | cons a t ih =>
    by_cases h : p (f a)
    · simp [List.filter_cons, h, ih]
    · simp [List.filter_cons, h, ih]

/-- Count in a duplicate-free list of key values. -/
theorem count_nodup_ite (x : Option Cell) :
    ∀ l : List (Option Cell), l.Nodup → l.count x = if x ∈ l then 1 else 0 := by
  intro l
  induction l with
  | nil => intro _; simp
  | cons a t ih =>
    intro hnd
    rcases List.nodup_cons.mp hnd with ⟨hat, hnt⟩
    rw [List.count_cons, ih hnt]
    by_cases hax : a = x
    · subst hax
      simp [hat]
    · have hxa : ¬ (x = a) := fun hh => hax hh.symm
      by_cases hxt : x ∈ t <;> simp [hax, hxt, hxa]

/-- Membership in the list of key values: the `any` test of `outerJoin`. -/
theorem any_key_eq_mem (L : List Row) (key : String) (x : Option Cell) :
    L.any (fun l => rowGet l key == x) = true ↔ x ∈ L.map (fun r => rowGet r key) := by
  simp [List.any_eq_true, beq_iff_eq, List.mem_map]

/-- The key values of an outer join, as a list: left keys followed by the
right keys absent on the left. -/
theorem outerJoin_keys_eq (key : String) (lCols rCols : List String) (L R : List Row)
    (hLsome : ∀ x ∈ L.map (fun r => rowGet r key), ∃ c : Cell, x = some c) :
    (outerJoin key lCols rCols L R).map (fun r => rowGet r key) =
      L.map (fun r => rowGet r key) ++
      (R.map (fun r => rowGet r key)).filter
        (fun x => !(L.any (fun l => rowGet l key == x))) := by
  have hL : ∀ l ∈ L, (rowGet l key).isSome := by
    intro l hl
    rcases hLsome (rowGet l key) (List.mem_map.mpr ⟨l, hl, rfl⟩) with ⟨c, hc⟩
    rw [hc]; rfl
  rw [outerJoin_keys key lCols rCols L R hL,
    filter_map_comm (fun r => rowGet r key)
      (fun x => !(L.any (fun l => rowGet l key == x))) R]

/-- Key multiset of an outer join of uniquely-keyed sides: the join has
exactly one row per key present on either side. -/
theorem outerJoin_count_keys (key : String) (lCols rCols : List String) (L R : List Row)
    (hLnodup : (L.map (fun r => rowGet r key)).Nodup)
    (hRnodup : (R.map (fun r => rowGet r key)).Nodup)
    (hLsome : ∀ x ∈ L.map (fun r => rowGet r key), ∃ c : Cell, x = some c) :
    (((outerJoin key lCols rCols L R).map (fun r => rowGet r key)).Nodup ∧
     ∀ x : Option Cell,
       (x ∈ (outerJoin key lCols rCols L R).map (fun r => rowGet r key) ↔
         (x ∈ L.map (fun r => rowGet r key) ∨ x ∈ R.map (fun r => rowGet r key)))) ∧
    ∀ x : Option Cell,
      ((outerJoin key lCols rCols L R).map (fun r => rowGet r key)).count x =
        if x ∈ L.map (fun r => rowGet r key) ∨ x ∈ R.map (fun r => rowGet r key)
        then 1 else 0 := by
  set KL := L.map (fun r => rowGet r key) with hKL
  set KR := R.map (fun r => rowGet r key) with hKR
  have hkeys := outerJoin_keys_eq key lCols rCols L R hLsome
  set B := KR.filter (fun x => !(L.any (fun l => rowGet l key == x))) with hB
  have hmemB : ∀ x : Option Cell, x ∈ B ↔ (x ∈ KR ∧ x ∉ KL) := by
    intro x
    rw [hB, List.mem_filter]
    constructor
    · rintro ⟨h1, h2⟩
      refine ⟨h1, fun hmem => ?_⟩
      rw [Bool.not_eq_eq_eq_not, Bool.not_true] at h2
      rw [(any_key_eq_mem L key x).mpr hmem] at h2
      exact absurd h2 (by decide)
    · rintro ⟨h1, h2⟩
      refine ⟨h1, ?_⟩
      rw [Bool.not_eq_eq_eq_not, Bool.not_true]
      cases hany : L.any (fun l => rowGet l key == x) with
      | false => rfl
      | true => exact absurd ((any_key_eq_mem L key x).mp hany) h2

  have hBnodup : B.Nodup := (List.filter_sublist KR).nodup hRnodup
  have hnodup : (KL ++ B).Nodup := by
    refine List.Nodup.append hLnodup hBnodup ?_
    rw [List.disjoint_left]
    intro x hxL hxB
    exact ((hmemB x).mp hxB).2 hxL
  have hmem : ∀ x : Option Cell, (x ∈ KL ++ B ↔ (x ∈ KL ∨ x ∈ KR)) := by
    intro x
    rw [List.mem_append, hmemB]
    constructor
    · rintro (h | ⟨h, _⟩)
      · exact Or.inl h
      · exact Or.inr h
    · rintro (h | h)
      · exact Or.inl h
      · by_cases hL2 : x ∈ KL
        · exact Or.inl hL2
        · exact Or.inr ⟨h, hL2⟩
  constructor
  · constructor
    · rw [hkeys]; exact hnodup
    · intro x; rw [hkeys]; exact hmem x
  · intro x
    rw [hkeys, count_nodup_ite x (KL ++ B) hnodup]
    by_cases hx : x ∈ KL ++ B
    · rw [if_pos hx, if_pos ((hmem x).mp hx)]
    · rw [if_neg hx, if_neg (fun hor => hx ((hmem x).mpr hor))]

/-! ## Keys of the per-region frames -/

theorem regionDisplay_cases (code : String) :
    regionDisplay code = "US" ∨ regionDisplay code = "TW" ∨
    regionDisplay code = "Unknown" := by
  unfold regionDisplay
  by_cases h1 : code = ""
  · simp [h1]
  · by_cases h2 : code = "tw" <;> simp [h1, h2]

/-- The iPhone rename map never reads or writes `Standardized_Name`. -/
theorem rowGet_iphoneRename_SN (code : String) (r : Row) :
    rowGet (renameRow
      [("SKU", "SKU_" ++ regionDisplay code), ("Price", "Price_" ++ regionDisplay code),
       ("Name", "Name_" ++ regionDisplay code),
       ("PartNumber", "PartNumber_" ++ regionDisplay code)] r) "Standardized_Name" =
      rowGet r "Standardized_Name" := by
  apply rowGet_renameRow_of_ne
  · intro p hp
    fin_cases hp <;> intro hcontra <;> simp at hcontra
  · intro p hp
    have hd := regionDisplay_cases code
    fin_cases hp <;> rcases hd with h | h | h <;> rw [h] <;> decide

/-- The iPad rename map never reads or writes `SKU`. -/
theorem rowGet_ipadRename_SKU (code : String) (r : Row) :
    rowGet (renameRow
      [("Price", "Price_" ++ regionDisplay code), ("Name", "Name_" ++ regionDisplay code),
       ("PartNumber", "PartNumber_" ++ regionDisplay code)] r) "SKU" = rowGet r "SKU" := by
  apply rowGet_renameRow_of_ne
  · intro p hp
    fin_cases hp <;> intro hcontra <;> simp at hcontra
  · intro p hp
    have hd := regionDisplay_cases code
    fin_cases hp <;> rcases hd with h | h | h <;> rw [h] <;> decide

theorem rowGet_mkIphoneRow_SN (e : RawEntry) :
    rowGet (mkIphoneRow e) "Standardized_Name" =
      some (Cell.str (standardize_product_name e.name)) := rfl

theorem rowGet_mkIphoneRow_RC (e : RawEntry) :
    rowGet (mkIphoneRow e) "Region_Code" = some (Cell.str e.regionCode) := rfl

theorem rowGet_mkIpadRow_SKU (e : RawEntry) :
    rowGet (mkIpadRow e) "SKU" = some (Cell.str e.sku) := rfl

theorem rowGet_mkIpadRow_RC (e : RawEntry) :
    rowGet (mkIpadRow e) "Region_Code" = some (Cell.str e.regionCode) := rfl

theorem beq_some_cell_str (a b : String) :
    (some (Cell.str a) == some (Cell.str b)) = decide (a = b) := by
  by_cases h : a = b <;> simp [h]

/-- Filtering the mapped records by region code is mapping the filtered
records. -/
theorem iphone_partition_eq (entries : List RawEntry) (code : String) :
    (entries.map mkIphoneRow).filter
        (fun r => rowGet r "Region_Code" == some (Cell.str code)) =
      (entries.filter (fun e => e.regionCode = code)).map mkIphoneRow := by
  rw [filter_map_comm]
  congr 1
  apply List.filter_congr
  intro e _
  rw [rowGet_mkIphoneRow_RC, beq_some_cell_str]

theorem ipad_partition_eq (entries : List RawEntry) (code : String) :
    (entries.map mkIpadRow).filter
        (fun r => rowGet r "Region_Code" == some (Cell.str code)) =
      (entries.filter (fun e => e.regionCode = code)).map mkIpadRow := by
  rw [filter_map_comm]
  congr 1
  apply List.filter_congr
  intro e _
  rw [rowGet_mkIpadRow_RC, beq_some_cell_str]

/-- Every row of an iPhone region frame is a renamed record row. -/
theorem iphoneRegionRows_shape (entries : List RawEntry) (code : String) :
    ∀ r ∈ iphoneRegionRows entries code, ∃ e : RawEntry,
      r = renameRow
        [("SKU", "SKU_" ++ regionDisplay code), ("Price", "Price_" ++ regionDisplay code),
         ("Name", "Name_" ++ regionDisplay code),
         ("PartNumber", "PartNumber_" ++ regionDisplay code)] (mkIphoneRow e) := by
  intro r hr
  unfold iphoneRegionRows at hr
  rcases List.mem_map.mp hr with ⟨r', hr', rfl⟩
  have hsub := dedupByAux_subset "Standardized_Name" _ [] r' hr'
  rw [iphone_partition_eq] at hsub
  rcases List.mem_map.mp hsub with ⟨e, _, rfl⟩
  exact ⟨e, rfl⟩

theorem ipadRegionRows_shape (entries : List RawEntry) (code : String) :
    ∀ r ∈ ipadRegionRows entries code, ∃ e : RawEntry,
      r = renameRow
        [("Price", "Price_" ++ regionDisplay code), ("Name", "Name_" ++ regionDisplay code),
         ("PartNumber", "PartNumber_" ++ regionDisplay code)] (mkIpadRow e) := by
  intro r hr
  unfold ipadRegionRows at hr
  rcases List.mem_map.mp hr with ⟨r', hr', rfl⟩
  have hsub := dedupByAux_subset "SKU" _ [] r' hr'
  rw [ipad_partition_eq] at hsub
  rcases List.mem_map.mp hsub with ⟨e, _, rfl⟩
  exact ⟨e, rfl⟩

/-- The key column of the iPhone region frame, before de-duplication, is
the region's partition-key list. -/
theorem iphone_filter_keys (entries : List RawEntry) (code : String) :
    ((entries.map mkIphoneRow).filter
        (fun r => rowGet r "Region_Code" == some (Cell.str code))).map
      (fun r => rowGet r "Standardized_Name") =
      (iphoneRegionKeys entries code).map some := by
  rw [iphone_partition_eq, List.map_map]
  unfold iphoneRegionKeys
  rw [List.map_map]
  exact List.map_congr_left (fun e _ => rfl)

theorem ipad_filter_keys (entries : List RawEntry) (code : String) :
    ((entries.map mkIpadRow).filter
        (fun r => rowGet r "Region_Code" == some (Cell.str code))).map
      (fun r => rowGet r "SKU") =
      (ipadRegionKeys entries code).map some := by
  rw [ipad_partition_eq, List.map_map]
  unfold ipadRegionKeys
  rw [List.map_map]
  exact List.map_congr_left (fun e _ => rfl)

/-- Key column of the iPhone per-region frame: de-duplicated, membership
matching the partition keys. -/
theorem iphoneRegionRows_keys (entries : List RawEntry) (code : String) :
    ((iphoneRegionRows entries code).map (fun r => rowGet r "Standardized_Name")).Nodup ∧
    ∀ x : Option Cell,
      (x ∈ (iphoneRegionRows entries code).map (fun r => rowGet r "Standardized_Name") ↔
        x ∈ (iphoneRegionKeys entries code).map some) := by
  have hmapeq : (iphoneRegionRows entries code).map
      (fun r => rowGet r "Standardized_Name") =
      (dedupBy "Standardized_Name"
        ((entries.map mkIphoneRow).filter
          (fun r => rowGet r "Region_Code" == some (Cell.str code)))).map
        (fun r => rowGet r "Standardized_Name") := by
    unfold iphoneRegionRows
    rw [List.map_map]
    exact List.map_congr_left (fun r _ => rowGet_iphoneRename_SN code r)
  constructor
  · rw [hmapeq]
    exact (dedupByAux_keys "Standardized_Name" _ []).1
  · intro x
    rw [hmapeq]
    unfold dedupBy
    rw [dedupByAux_keys_mem "Standardized_Name" _ [] x, iphone_filter_keys]
    simp

theorem ipadRegionRows_keys (entries : List RawEntry) (code : String) :
    ((ipadRegionRows entries code).map (fun r => rowGet r "SKU")).Nodup ∧
    ∀ x : Option Cell,
      (x ∈ (ipadRegionRows entries code).map (fun r => rowGet r "SKU") ↔
        x ∈ (ipadRegionKeys entries code).map some) := by
  have hmapeq : (ipadRegionRows entries code).map (fun r => rowGet r "SKU") =
      (dedupBy "SKU"
        ((entries.map mkIpadRow).filter
          (fun r => rowGet r "Region_Code" == some (Cell.str code)))).map
        (fun r => rowGet r "SKU") := by
    unfold ipadRegionRows
    rw [List.map_map]
    exact List.map_congr_left (fun r _ => rowGet_ipadRename_SKU code r)
  constructor
  · rw [hmapeq]
    exact (dedupByAux_keys "SKU" _ []).1
  · intro x
    rw [hmapeq]
    unfold dedupBy
    rw [dedupByAux_keys_mem "SKU" _ [] x, ipad_filter_keys]
    simp

/-- Every key cell of an iPhone region frame is a `some` (and a string). -/
theorem iphoneRegionRows_keys_some (entries : List RawEntry) (code : String) :
    ∀ x ∈ (iphoneRegionRows entries code).map (fun r => rowGet r "Standardized_Name"),
      ∃ c : Cell, x = some c := by
  intro x hx
  rcases List.mem_map.mp hx with ⟨r, hr, rfl⟩
  rcases iphoneRegionRows_shape entries code r hr with ⟨e, rfl⟩
  rw [rowGet_iphoneRename_SN, rowGet_mkIphoneRow_SN]
  exact ⟨_, rfl⟩

theorem ipadRegionRows_keys_some (entries : List RawEntry) (code : String) :
    ∀ x ∈ (ipadRegionRows entries code).map (fun r => rowGet r "SKU"),
      ∃ c : Cell, x = some c := by
  intro x hx
  rcases List.mem_map.mp hx with ⟨r, hr, rfl⟩
  rcases ipadRegionRows_shape entries code r hr with ⟨e, rfl⟩
  rw [rowGet_ipadRename_SKU, rowGet_mkIpadRow_SKU]
  exact ⟨_, rfl⟩

/-! ## Values of the merged cells (towards C2) -/

/-- Cell values of a renamed US iPhone record row (all definitional). -/
theorem renamedIphoneUS_vals (e : RawEntry) :
    rowGet (renameRow
      [("SKU", "SKU_" ++ regionDisplay ""), ("Price", "Price_" ++ regionDisplay ""),
       ("Name", "Name_" ++ regionDisplay ""),
       ("PartNumber", "PartNumber_" ++ regionDisplay "")] (mkIphoneRow e)) "Price_US" =
      some (priceCell e.price) ∧
    rowGet (renameRow
      [("SKU", "SKU_" ++ regionDisplay ""), ("Price", "Price_" ++ regionDisplay ""),
       ("Name", "Name_" ++ regionDisplay ""),
       ("PartNumber", "PartNumber_" ++ regionDisplay "")] (mkIphoneRow e)) "SKU_US" =
      some (Cell.str e.sku) ∧
    rowGet (renameRow
      [("SKU", "SKU_" ++ regionDisplay ""), ("Price", "Price_" ++ regionDisplay ""),
       ("Name", "Name_" ++ regionDisplay ""),
       ("PartNumber", "PartNumber_" ++ regionDisplay "")] (mkIphoneRow e)) "Price_TW" =
      none ∧
    rowGet (renameRow
      [("SKU", "SKU_" ++ regionDisplay ""), ("Price", "Price_" ++ regionDisplay ""),
       ("Name", "Name_" ++ regionDisplay ""),
       ("PartNumber", "PartNumber_" ++ regionDisplay "")] (mkIphoneRow e)) "SKU_TW" =
      none ∧
    rowGet (renameRow
      [("SKU", "SKU_" ++ regionDisplay ""), ("Price", "Price_" ++ regionDisplay ""),
       ("Name", "Name_" ++ regionDisplay ""),
       ("PartNumber", "PartNumber_" ++ regionDisplay "")] (mkIphoneRow e)) "Name_US" =
      some (Cell.str e.name) :=
  ⟨rfl, rfl, rfl, rfl, rfl⟩

/-- Cell values of a renamed TW iPhone record row (all definitional). -/
theorem renamedIphoneTW_vals (e : RawEntry) :
    rowGet (renameRow
      [("SKU", "SKU_" ++ regionDisplay "tw"), ("Price", "Price_" ++ regionDisplay "tw"),
       ("Name", "Name_" ++ regionDisplay "tw"),
       ("PartNumber", "PartNumber_" ++ regionDisplay "tw")] (mkIphoneRow e)) "Price_TW" =
      some (priceCell e.price) ∧
    rowGet (renameRow
      [("SKU", "SKU_" ++ regionDisplay "tw"), ("Price", "Price_" ++ regionDisplay "tw"),
       ("Name", "Name_" ++ regionDisplay "tw"),
       ("PartNumber", "PartNumber_" ++ regionDisplay "tw")] (mkIphoneRow e)) "SKU_TW" =
      some (Cell.str e.sku) :=
  ⟨rfl, rfl⟩

/-- Cell values of a renamed iPad record row, for both regions. -/
theorem renamedIpadUS_vals (e : RawEntry) :
    rowGet (renameRow
      [("Price", "Price_" ++ regionDisplay ""), ("Name", "Name_" ++ regionDisplay ""),
       ("PartNumber", "PartNumber_" ++ regionDisplay "")] (mkIpadRow e)) "SKU" =
      some (Cell.str e.sku) ∧
    rowGet (renameRow
      [("Price", "Price_" ++ regionDisplay ""), ("Name", "Name_" ++ regionDisplay ""),
       ("PartNumber", "PartNumber_" ++ regionDisplay "")] (mkIpadRow e)) "Price_US" =
      some (priceCell e.price) ∧
    rowGet (renameRow
      [("Price", "Price_" ++ regionDisplay ""), ("Name", "Name_" ++ regionDisplay ""),
       ("PartNumber", "PartNumber_" ++ regionDisplay "")] (mkIpadRow e)) "Name_US" =
      some (Cell.str e.name) :=
  ⟨rfl, rfl, rfl⟩

theorem renamedIpadTW_vals (e : RawEntry) :
    rowGet (renameRow
      [("Price", "Price_" ++ regionDisplay "tw"), ("Name", "Name_" ++ regionDisplay "tw"),
       ("PartNumber", "PartNumber_" ++ regionDisplay "tw")] (mkIpadRow e)) "SKU" =
      some (Cell.str e.sku) ∧
    rowGet (renameRow
      [("Price", "Price_" ++ regionDisplay "tw"), ("Name", "Name_" ++ regionDisplay "tw"),
       ("PartNumber", "PartNumber_" ++ regionDisplay "tw")] (mkIpadRow e)) "Price_TW" =
      some (priceCell e.price) ∧
    rowGet (renameRow
      [("Price", "Price_" ++ regionDisplay "tw"), ("Name", "Name_" ++ regionDisplay "tw"),
       ("PartNumber", "PartNumber_" ++ regionDisplay "tw")] (mkIpadRow e)) "Name_TW" =
      some (Cell.str e.name) :=
  ⟨rfl, rfl, rfl⟩

/-- A cell is "price-like" when it is a number or `NaN`. -/
def priceLike (o : Option Cell) : Prop :=
  o = some Cell.nan ∨ ∃ q : ℚ, o = some (Cell.num q)

/-- A cell is "string-like" when it is a string or `NaN`. -/
def strLike (o : Option Cell) : Prop :=
  o = some Cell.nan ∨ ∃ s : String, o = some (Cell.str s)

theorem priceLike_priceCell (p : Option ℚ) : priceLike (some (priceCell p)) := by
  cases p with
  | none => exact Or.inl rfl
  | some q => exact Or.inr ⟨q, rfl⟩

/-- The three possible shapes of an outer-join row. -/
theorem outerJoin_row_cases (key : String) (lCols rCols : List String) (L R : List Row)
    (r : Row) (hr : r ∈ outerJoin key lCols rCols L R) :
    (∃ l ∈ L, ∃ rm ∈ R, r = l ++ rm.filter (fun e => e.1 ≠ key)) ∨
    (∃ l ∈ L, r = l ++ (rCols.filter (fun c => c ≠ key)).map (fun c => (c, Cell.nan))) ∨
    (∃ rm ∈ R, r = (lCols.filter (fun c => c ≠ key)).map (fun c => (c, Cell.nan)) ++ rm) := by
  unfold outerJoin at hr
  rcases List.mem_append.mp hr with h | h
  · rcases List.mem_map.mp h with ⟨l, hl, rfl⟩
    split
    · rename_i rm hf
      left
      exact ⟨l, hl, rm, List.mem_of_find?_eq_some hf, rfl⟩
    · right; left
      exact ⟨l, hl, rfl⟩
  · rcases List.mem_map.mp h with ⟨rm, hrm, rfl⟩
    right; right
    exact ⟨rm, (List.mem_filter.mp hrm).1, rfl⟩

/-- Every row of the raw iPhone join has price-like prices and string-like
SKUs in both region columns (the fill step then turns `NaN` into `0` or
`''`). -/
theorem iphone_raw_vals (entries : List RawEntry) :
    ∀ r ∈ iphoneMergedRaw entries,
      priceLike (rowGet r "Price_US") ∧ priceLike (rowGet r "Price_TW") ∧
      strLike (rowGet r "SKU_US") ∧ strLike (rowGet r "SKU_TW") := by
  intro r hr
  have hcases := outerJoin_row_cases "Standardized_Name" iphoneLCols
    ["SKU_TW", "Price_TW", "Standardized_Name"] (iphoneRegionRows entries "")
    ((iphoneRegionRows entries "tw").map
      (selectRowCols ["SKU_TW", "Price_TW", "Standardized_Name"])) r hr
  have hRshape : ∀ rm ∈ (iphoneRegionRows entries "tw").map
      (selectRowCols ["SKU_TW", "Price_TW", "Standardized_Name"]),
      ∃ e2 : RawEntry, rm = selectRowCols ["SKU_TW", "Price_TW", "Standardized_Name"]
        (renameRow
          [("SKU", "SKU_" ++ regionDisplay "tw"), ("Price", "Price_" ++ regionDisplay "tw"),
           ("Name", "Name_" ++ regionDisplay "tw"),
           ("PartNumber", "PartNumber_" ++ regionDisplay "tw")] (mkIphoneRow e2)) := by
    intro rm hm
    rcases List.mem_map.mp hm with ⟨rtw, hrtw, rfl⟩
    rcases iphoneRegionRows_shape entries "tw" rtw hrtw with ⟨e2, rfl⟩
    exact ⟨e2, rfl⟩
  rcases hcases with ⟨l, hl, rm, hrm, rfl⟩ | ⟨l, hl, rfl⟩ | ⟨rm, hrm, rfl⟩
  · rcases iphoneRegionRows_shape entries "" l hl with ⟨e, rfl⟩
    rcases renamedIphoneUS_vals e with ⟨hpus, hsus, hptw, hstw, _⟩
    rcases hRshape rm hrm with ⟨e2, rfl⟩
    rcases renamedIphoneTW_vals e2 with ⟨hptw2, hstw2⟩
    refine ⟨?_, ?_, ?_, ?_⟩
    · rw [rowGet_append_of_isSome _ _ _ (by rw [hpus]; rfl), hpus]
      exact priceLike_priceCell e.price
    · have hsel : rowGet ((selectRowCols ["SKU_TW", "Price_TW", "Standardized_Name"]
            (renameRow
              [("SKU", "SKU_" ++ regionDisplay "tw"), ("Price", "Price_" ++ regionDisplay "tw"),
               ("Name", "Name_" ++ regionDisplay "tw"),
               ("PartNumber", "PartNumber_" ++ regionDisplay "tw")]
              (mkIphoneRow e2))).filter (fun en => en.1 ≠ "Standardized_Name")) "Price_TW" =
          some ((rowGet (renameRow
              [("SKU", "SKU_" ++ regionDisplay "tw"), ("Price", "Price_" ++ regionDisplay "tw"),
               ("Name", "Name_" ++ regionDisplay "tw"),
               ("PartNumber", "PartNumber_" ++ regionDisplay "tw")]
              (mkIphoneRow e2)) "Price_TW").getD Cell.nan) := rfl
      rw [rowGet_append_of_none _ _ _ hptw, hsel, hptw2]
      exact priceLike_priceCell e2.price
    · rw [rowGet_append_of_isSome _ _ _ (by rw [hsus]; rfl), hsus]
      exact Or.inr ⟨e.sku, rfl⟩
    · have hsel2 : rowGet ((selectRowCols ["SKU_TW", "Price_TW", "Standardized_Name"]
            (renameRow
              [("SKU", "SKU_" ++ regionDisplay "tw"), ("Price", "Price_" ++ regionDisplay "tw"),
               ("Name", "Name_" ++ regionDisplay "tw"),
               ("PartNumber", "PartNumber_" ++ regionDisplay "tw")]
              (mkIphoneRow e2))).filter (fun en => en.1 ≠ "Standardized_Name")) "SKU_TW" =
          some ((rowGet (renameRow
              [("SKU", "SKU_" ++ regionDisplay "tw"), ("Price", "Price_" ++ regionDisplay "tw"),
               ("Name", "Name_" ++ regionDisplay "tw"),
               ("PartNumber", "PartNumber_" ++ regionDisplay "tw")]
              (mkIphoneRow e2)) "SKU_TW").getD Cell.nan) := rfl
      rw [rowGet_append_of_none _ _ _ hstw, hsel2, hstw2]
      exact Or.inr ⟨e2.sku, rfl⟩
  · rcases iphoneRegionRows_shape entries "" l hl with ⟨e, rfl⟩
    rcases renamedIphoneUS_vals e with ⟨hpus, hsus, hptw, hstw, _⟩
    refine ⟨?_, ?_, ?_, ?_⟩
    · rw [rowGet_append_of_isSome _ _ _ (by rw [hpus]; rfl), hpus]
      exact priceLike_priceCell e.price
    · rw [rowGet_append_of_none _ _ _ hptw]
      exact Or.inl rfl
    · rw [rowGet_append_of_isSome _ _ _ (by rw [hsus]; rfl), hsus]
      exact Or.inr ⟨e.sku, rfl⟩
    · rw [rowGet_append_of_none _ _ _ hstw]
      exact Or.inl rfl
  · rcases hRshape rm hrm with ⟨e2, rfl⟩
    rcases renamedIphoneTW_vals e2 with ⟨hptw2, hstw2⟩
    refine ⟨?_, ?_, ?_, ?_⟩
    · rw [rowGet_append_of_isSome _ _ _ (by rfl)]
      exact Or.inl rfl
    · rw [rowGet_append_of_none _ _ _ (by rfl),
        rowGet_selectRowCols_mem _ _ _ (by decide), hptw2]
      exact priceLike_priceCell e2.price
    · rw [rowGet_append_of_isSome _ _ _ (by rfl)]
      exact Or.inl rfl
    · rw [rowGet_append_of_none _ _ _ (by rfl),
        rowGet_selectRowCols_mem _ _ _ (by decide), hstw2]
      exact Or.inr ⟨e2.sku, rfl⟩

/-- After the fill chain of src/iphone.py, prices are numbers and SKUs are
strings in every merged row. -/
theorem iphone_filled_vals (entries : List RawEntry) :
    ∀ r ∈ iphoneFilled entries,
      (∃ q : ℚ, rowGet r "Price_US" = some (Cell.num q)) ∧
      (∃ q : ℚ, rowGet r "Price_TW" = some (Cell.num q)) ∧
      (∃ s : String, rowGet r "SKU_US" = some (Cell.str s)) ∧
      (∃ s : String, rowGet r "SKU_TW" = some (Cell.str s)) := by
  intro r hr
  unfold iphoneFilled fillCol at hr
  rcases List.mem_map.mp hr with ⟨r3, hr3, rfl⟩
  rcases List.mem_map.mp hr3 with ⟨r2, hr2, rfl⟩
  rcases List.mem_map.mp hr2 with ⟨r1, hr1, rfl⟩
  rcases List.mem_map.mp hr1 with ⟨r0, hr0, rfl⟩
  rcases iphone_raw_vals entries r0 hr0 with ⟨hp1, hp2, hs1, hs2⟩
  refine ⟨?_, ?_, ?_, ?_⟩
  · rw [rowGet_fillCell_ne _ _ _ _ (by decide), rowGet_fillCell_ne _ _ _ _ (by decide),
      rowGet_fillCell_ne _ _ _ _ (by decide), rowGet_fillCell_self]
    rcases hp1 with hnan | ⟨q, hq⟩
    · rw [hnan]; exact ⟨0, rfl⟩
    · rw [hq]; exact ⟨q, rfl⟩
  · have hinner : rowGet (fillCell "SKU_US" (Cell.str "")
        (fillCell "Price_US" (Cell.num 0) r0)) "Price_TW" = rowGet r0 "Price_TW" := by
      rw [rowGet_fillCell_ne _ _ _ _ (by decide), rowGet_fillCell_ne _ _ _ _ (by decide)]
    rw [rowGet_fillCell_ne _ _ _ _ (by decide), rowGet_fillCell_self, hinner]
    rcases hp2 with hnan | ⟨q, hq⟩
    · rw [hnan]; exact ⟨0, rfl⟩
    · rw [hq]; exact ⟨q, rfl⟩
  · have hinner : rowGet (fillCell "Price_US" (Cell.num 0) r0) "SKU_US" =
        rowGet r0 "SKU_US" := by
      rw [rowGet_fillCell_ne _ _ _ _ (by decide)]
    rw [rowGet_fillCell_ne _ _ _ _ (by decide), rowGet_fillCell_ne _ _ _ _ (by decide),
      rowGet_fillCell_self, hinner]
    rcases hs1 with hnan | ⟨s, hs⟩
    · rw [hnan]; exact ⟨"", rfl⟩
    · rw [hs]; exact ⟨s, rfl⟩
  · have hinner : rowGet (fillCell "Price_TW" (Cell.num 0) (fillCell "SKU_US" (Cell.str "")
        (fillCell "Price_US" (Cell.num 0) r0))) "SKU_TW" = rowGet r0 "SKU_TW" := by
      rw [rowGet_fillCell_ne _ _ _ _ (by decide), rowGet_fillCell_ne _ _ _ _ (by decide),
        rowGet_fillCell_ne _ _ _ _ (by decide)]
    rw [rowGet_fillCell_self, hinner]
    rcases hs2 with hnan | ⟨s, hs⟩
    · rw [hnan]; exact ⟨"", rfl⟩
    · rw [hs]; exact ⟨s, rfl⟩

/-- Every row of the raw iPad join has price-like prices and string-like
names in both region columns, and a string SKU. -/
theorem ipad_raw_vals (entries : List RawEntry) :
    ∀ r ∈ ipadMergedRaw entries,
      priceLike (rowGet r "Price_US") ∧ priceLike (rowGet r "Price_TW") ∧
      strLike (rowGet r "Name_US") ∧ strLike (rowGet r "Name_TW") := by
  intro r hr
  have hcases := outerJoin_row_cases "SKU" ["SKU", "Price_US", "Name_US"]
    ["SKU", "Price_TW", "Name_TW"]
    ((ipadRegionRows entries "").map (selectRowCols ["SKU", "Price_US", "Name_US"]))
    ((ipadRegionRows entries "tw").map (selectRowCols ["SKU", "Price_TW", "Name_TW"])) r hr
  have hLshape : ∀ l ∈ (ipadRegionRows entries "").map
      (selectRowCols ["SKU", "Price_US", "Name_US"]),
      ∃ e : RawEntry, l = selectRowCols ["SKU", "Price_US", "Name_US"]
        (renameRow
          [("Price", "Price_" ++ regionDisplay ""), ("Name", "Name_" ++ regionDisplay ""),
           ("PartNumber", "PartNumber_" ++ regionDisplay "")] (mkIpadRow e)) := by
    intro l hm
    rcases List.mem_map.mp hm with ⟨rus, hrus, rfl⟩
    rcases ipadRegionRows_shape entries "" rus hrus with ⟨e, rfl⟩
    exact ⟨e, rfl⟩
  have hRshape : ∀ rm ∈ (ipadRegionRows entries "tw").map
      (selectRowCols ["SKU", "Price_TW", "Name_TW"]),
      ∃ e2 : RawEntry, rm = selectRowCols ["SKU", "Price_TW", "Name_TW"]
        (renameRow
          [("Price", "Price_" ++ regionDisplay "tw"), ("Name", "Name_" ++ regionDisplay "tw"),
           ("PartNumber", "PartNumber_" ++ regionDisplay "tw")] (mkIpadRow e2)) := by
    intro rm hm
    rcases List.mem_map.mp hm with ⟨rtw, hrtw, rfl⟩
    rcases ipadRegionRows_shape entries "tw" rtw hrtw with ⟨e2, rfl⟩
    exact ⟨e2, rfl⟩
  rcases hcases with ⟨l, hl, rm, hrm, rfl⟩ | ⟨l, hl, rfl⟩ | ⟨rm, hrm, rfl⟩
  · rcases hLshape l hl with ⟨e, rfl⟩
    rcases renamedIpadUS_vals e with ⟨_, hpus, hnus⟩
    rcases hRshape rm hrm with ⟨e2, rfl⟩
    rcases renamedIpadTW_vals e2 with ⟨_, hptw, hntw⟩
    refine ⟨?_, ?_, ?_, ?_⟩
    · rw [rowGet_append_of_isSome _ _ _ (by rw [rowGet_selectRowCols_mem _ _ _ (by decide)]; rfl),
        rowGet_selectRowCols_mem _ _ _ (by decide), hpus]
      exact priceLike_priceCell e.price
    · rw [rowGet_append_of_none _ _ _ (rowGet_selectRowCols_not_mem _ _ _ (by decide))]
      have hsel : rowGet ((selectRowCols ["SKU", "Price_TW", "Name_TW"]
          (renameRow
            [("Price", "Price_" ++ regionDisplay "tw"), ("Name", "Name_" ++ regionDisplay "tw"),
             ("PartNumber", "PartNumber_" ++ regionDisplay "tw")]
            (mkIpadRow e2))).filter (fun en => en.1 ≠ "SKU")) "Price_TW" =
          some ((rowGet (renameRow
            [("Price", "Price_" ++ regionDisplay "tw"), ("Name", "Name_" ++ regionDisplay "tw"),
             ("PartNumber", "PartNumber_" ++ regionDisplay "tw")]
            (mkIpadRow e2)) "Price_TW").getD Cell.nan) := rfl
      rw [hsel, hptw]
      exact priceLike_priceCell e2.price
    · rw [rowGet_append_of_isSome _ _ _ (by rw [rowGet_selectRowCols_mem _ _ _ (by decide)]; rfl),
        rowGet_selectRowCols_mem _ _ _ (by decide), hnus]
      exact Or.inr ⟨e.name, rfl⟩
    · rw [rowGet_append_of_none _ _ _ (rowGet_selectRowCols_not_mem _ _ _ (by decide))]
      have hsel : rowGet ((selectRowCols ["SKU", "Price_TW", "Name_TW"]
          (renameRow
            [("Price", "Price_" ++ regionDisplay "tw"), ("Name", "Name_" ++ regionDisplay "tw"),
             ("PartNumber", "PartNumber_" ++ regionDisplay "tw")]
            (mkIpadRow e2))).filter (fun en => en.1 ≠ "SKU")) "Name_TW" =
          some ((rowGet (renameRow
            [("Price", "Price_" ++ regionDisplay "tw"), ("Name", "Name_" ++ regionDisplay "tw"),
             ("PartNumber", "PartNumber_" ++ regionDisplay "tw")]
            (mkIpadRow e2)) "Name_TW").getD Cell.nan) := rfl
      rw [hsel, hntw]
      exact Or.inr ⟨e2.name, rfl⟩
  · rcases hLshape l hl with ⟨e, rfl⟩
    rcases renamedIpadUS_vals e with ⟨_, hpus, hnus⟩
    refine ⟨?_, ?_, ?_, ?_⟩
    · rw [rowGet_append_of_isSome _ _ _ (by rw [rowGet_selectRowCols_mem _ _ _ (by decide)]; rfl),
        rowGet_selectRowCols_mem _ _ _ (by decide), hpus]
      exact priceLike_priceCell e.price
    · rw [rowGet_append_of_none _ _ _ (rowGet_selectRowCols_not_mem _ _ _ (by decide))]
      exact Or.inl rfl
    · rw [rowGet_append_of_isSome _ _ _ (by rw [rowGet_selectRowCols_mem _ _ _ (by decide)]; rfl),
        rowGet_selectRowCols_mem _ _ _ (by decide), hnus]
      exact Or.inr ⟨e.name, rfl⟩
    · rw [rowGet_append_of_none _ _ _ (rowGet_selectRowCols_not_mem _ _ _ (by decide))]
      exact Or.inl rfl
  · rcases hRshape rm hrm with ⟨e2, rfl⟩
    rcases renamedIpadTW_vals e2 with ⟨_, hptw, hntw⟩
    refine ⟨?_, ?_, ?_, ?_⟩
    · rw [rowGet_append_of_isSome _ _ _ (by rfl)]
      exact Or.inl rfl
    · rw [rowGet_append_of_none _ _ _ (by rfl),
        rowGet_selectRowCols_mem _ _ _ (by decide), hptw]
      exact priceLike_priceCell e2.price
    · rw [rowGet_append_of_isSome _ _ _ (by rfl)]
      exact Or.inl rfl
    · rw [rowGet_append_of_none _ _ _ (by rfl),
        rowGet_selectRowCols_mem _ _ _ (by decide), hntw]
      exact Or.inr ⟨e2.name, rfl⟩

/-- After the fill chain of src/ipad.py, prices are numbers and names are
strings in every merged row. -/
theorem ipad_filled_vals (entries : List RawEntry) :
    ∀ r ∈ ipadFilled entries,
      (∃ q : ℚ, rowGet r "Price_US" = some (Cell.num q)) ∧
      (∃ q : ℚ, rowGet r "Price_TW" = some (Cell.num q)) ∧
      (∃ s : String, rowGet r "Name_US" = some (Cell.str s)) ∧
      (∃ s : String, rowGet r "Name_TW" = some (Cell.str s)) := by
  intro r hr
  unfold ipadFilled fillCol at hr
  rcases List.mem_map.mp hr with ⟨r3, hr3, rfl⟩
  rcases List.mem_map.mp hr3 with ⟨r2, hr2, rfl⟩
  rcases List.mem_map.mp hr2 with ⟨r1, hr1, rfl⟩
  rcases List.mem_map.mp hr1 with ⟨r0, hr0, rfl⟩
  rcases ipad_raw_vals entries r0 hr0 with ⟨hp1, hp2, hn1, hn2⟩
  refine ⟨?_, ?_, ?_, ?_⟩
  · rw [rowGet_fillCell_ne _ _ _ _ (by decide), rowGet_fillCell_ne _ _ _ _ (by decide),
      rowGet_fillCell_ne _ _ _ _ (by decide), rowGet_fillCell_self]
    rcases hp1 with hnan | ⟨q, hq⟩
    · rw [hnan]; exact ⟨0, rfl⟩
    · rw [hq]; exact ⟨q, rfl⟩
  · have hinner : rowGet (fillCell "Name_US" (Cell.str "")
        (fillCell "Price_US" (Cell.num 0) r0)) "Price_TW" = rowGet r0 "Price_TW" := by
      rw [rowGet_fillCell_ne _ _ _ _ (by decide), rowGet_fillCell_ne _ _ _ _ (by decide)]
    rw [rowGet_fillCell_ne _ _ _ _ (by decide), rowGet_fillCell_self, hinner]
    rcases hp2 with hnan | ⟨q, hq⟩
    · rw [hnan]; exact ⟨0, rfl⟩
    · rw [hq]; exact ⟨q, rfl⟩
  · have hinner : rowGet (fillCell "Price_US" (Cell.num 0) r0) "Name_US" =
        rowGet r0 "Name_US" := by
      rw [rowGet_fillCell_ne _ _ _ _ (by decide)]
    rw [rowGet_fillCell_ne _ _ _ _ (by decide), rowGet_fillCell_ne _ _ _ _ (by decide),
      rowGet_fillCell_self, hinner]
    rcases hn1 with hnan | ⟨s, hs⟩
    · rw [hnan]; exact ⟨"", rfl⟩
    · rw [hs]; exact ⟨s, rfl⟩
  · have hinner : rowGet (fillCell "Price_TW" (Cell.num 0) (fillCell "Name_US" (Cell.str "")
        (fillCell "Price_US" (Cell.num 0) r0))) "Name_TW" = rowGet r0 "Name_TW" := by
      rw [rowGet_fillCell_ne _ _ _ _ (by decide), rowGet_fillCell_ne _ _ _ _ (by decide),
        rowGet_fillCell_ne _ _ _ _ (by decide)]
    rw [rowGet_fillCell_self, hinner]
    rcases hn2 with hnan | ⟨s, hs⟩
    · rw [hnan]; exact ⟨"", rfl⟩
    · rw [hs]; exact ⟨s, rfl⟩

/-! ## Key multiset of the merged frames (towards C1) -/

/-- Restricting a frame to columns that include the join key leaves the key
column unchanged (when every key is present, as it is after a rename of a
record row). -/
theorem select_keys_eq (cols : List String) (key : String) (hmem : key ∈ cols)
    (rows : List Row)
    (hsome : ∀ x ∈ rows.map (fun r => rowGet r key), ∃ c : Cell, x = some c) :
    (rows.map (selectRowCols cols)).map (fun r => rowGet r key) =
      rows.map (fun r => rowGet r key) := by
  rw [List.map_map]
  apply List.map_congr_left
  intro r hr
  rcases hsome (rowGet r key) (List.mem_map.mpr ⟨r, hr, rfl⟩) with ⟨c, hc⟩
  show rowGet (selectRowCols cols r) key = rowGet r key
  rw [rowGet_selectRowCols_mem cols r key hmem, hc]
  rfl

/-- The fill loop of src/iphone.py does not touch the join-key column. -/
theorem iphoneFilled_keys (entries : List RawEntry) :
    (iphoneFilled entries).map (fun r => rowGet r "Standardized_Name") =
      (iphoneMergedRaw entries).map (fun r => rowGet r "Standardized_Name") := by
  unfold iphoneFilled
  rw [map_rowGet_fillCol _ _ _ _ (by decide), map_rowGet_fillCol _ _ _ _ (by decide),
    map_rowGet_fillCol _ _ _ _ (by decide), map_rowGet_fillCol _ _ _ _ (by decide)]

/-- The fill loop of src/ipad.py does not touch the join-key column. -/
theorem ipadFilled_keys (entries : List RawEntry) :
    (ipadFilled entries).map (fun r => rowGet r "SKU") =
      (ipadMergedRaw entries).map (fun r => rowGet r "SKU") := by
  unfold ipadFilled
  rw [map_rowGet_fillCol _ _ _ _ (by decide), map_rowGet_fillCol _ _ _ _ (by decide),
    map_rowGet_fillCol _ _ _ _ (by decide), map_rowGet_fillCol _ _ _ _ (by decide)]

/-- Key column of the merged iPhone frame: duplicate-free, and its members
are exactly the partition keys. -/
theorem iphone_merged_keys (entries : List RawEntry) :
    ((iphoneFilled entries).map (fun r => rowGet r "Standardized_Name")).Nodup ∧
    ∀ x : Option Cell,
      (x ∈ (iphoneFilled entries).map (fun r => rowGet r "Standardized_Name") ↔
        x ∈ (iphonePartitionKeys entries).map some) ∧
      ((iphoneFilled entries).map (fun r => rowGet r "Standardized_Name")).count x =
        if x ∈ (iphonePartitionKeys entries).map some then 1 else 0 := by
  obtain ⟨hLnd, hLmem⟩ := iphoneRegionRows_keys entries ""
  obtain ⟨hRnd, hRmem⟩ := iphoneRegionRows_keys entries "tw"
  have hRkeys : ((iphoneRegionRows entries "tw").map
      (selectRowCols ["SKU_TW", "Price_TW", "Standardized_Name"])).map
        (fun r => rowGet r "Standardized_Name") =
      (iphoneRegionRows entries "tw").map (fun r => rowGet r "Standardized_Name") :=
    select_keys_eq _ _ (by decide) _ (iphoneRegionRows_keys_some entries "tw")
  obtain ⟨⟨hnd, hmem⟩, hcnt⟩ := outerJoin_count_keys "Standardized_Name" iphoneLCols
    ["SKU_TW", "Price_TW", "Standardized_Name"]
    (iphoneRegionRows entries "")
    ((iphoneRegionRows entries "tw").map
      (selectRowCols ["SKU_TW", "Price_TW", "Standardized_Name"]))
    hLnd (by rw [hRkeys]; exact hRnd) (iphoneRegionRows_keys_some entries "")
  have hunion : ∀ x : Option Cell,
      ((x ∈ (iphoneRegionRows entries "").map (fun r => rowGet r "Standardized_Name") ∨
        x ∈ ((iphoneRegionRows entries "tw").map
          (selectRowCols ["SKU_TW", "Price_TW", "Standardized_Name"])).map
            (fun r => rowGet r "Standardized_Name")) ↔
       x ∈ (iphonePartitionKeys entries).map some) := by
    intro x
    rw [hRkeys]
    unfold iphonePartitionKeys
    rw [List.map_append, List.mem_append]
    exact or_congr (hLmem x) (hRmem x)
  refine ⟨?_, ?_⟩
  · rw [iphoneFilled_keys entries]
    exact hnd
  · intro x
    rw [iphoneFilled_keys entries]
    exact ⟨(hmem x).trans (hunion x), (hcnt x).trans (if_congr (hunion x) rfl rfl)⟩

/-- Key column of the merged iPad frame: duplicate-free, and its members
are exactly the partition keys. -/
theorem ipad_merged_keys (entries : List RawEntry) :
    ((ipadFilled entries).map (fun r => rowGet r "SKU")).Nodup ∧
    ∀ x : Option Cell,
      (x ∈ (ipadFilled entries).map (fun r => rowGet r "SKU") ↔
        x ∈ (ipadPartitionKeys entries).map some) ∧
      ((ipadFilled entries).map (fun r => rowGet r "SKU")).count x =
        if x ∈ (ipadPartitionKeys entries).map some then 1 else 0 := by
  obtain ⟨hLnd, hLmem⟩ := ipadRegionRows_keys entries ""
  obtain ⟨hRnd, hRmem⟩ := ipadRegionRows_keys entries "tw"
  have hLkeys : ((ipadRegionRows entries "").map
      (selectRowCols ["SKU", "Price_US", "Name_US"])).map (fun r => rowGet r "SKU") =
      (ipadRegionRows entries "").map (fun r => rowGet r "SKU") :=
    select_keys_eq _ _ (by decide) _ (ipadRegionRows_keys_some entries "")
  have hRkeys : ((ipadRegionRows entries "tw").map
      (selectRowCols ["SKU", "Price_TW", "Name_TW"])).map (fun r => rowGet r "SKU") =
      (ipadRegionRows entries "tw").map (fun r => rowGet r "SKU") :=
    select_keys_eq _ _ (by decide) _ (ipadRegionRows_keys_some entries "tw")
  obtain ⟨⟨hnd, hmem⟩, hcnt⟩ := outerJoin_count_keys "SKU"
    ["SKU", "Price_US", "Name_US"] ["SKU", "Price_TW", "Name_TW"]
    ((ipadRegionRows entries "").map (selectRowCols ["SKU", "Price_US", "Name_US"]))
    ((ipadRegionRows entries "tw").map (selectRowCols ["SKU", "Price_TW", "Name_TW"]))
    (by rw [hLkeys]; exact hLnd) (by rw [hRkeys]; exact hRnd)
    (by rw [hLkeys]; exact ipadRegionRows_keys_some entries "")
  have hunion : ∀ x : Option Cell,
      ((x ∈ ((ipadRegionRows entries "").map
          (selectRowCols ["SKU", "Price_US", "Name_US"])).map (fun r => rowGet r "SKU") ∨
        x ∈ ((ipadRegionRows entries "tw").map
          (selectRowCols ["SKU", "Price_TW", "Name_TW"])).map (fun r => rowGet r "SKU")) ↔
       x ∈ (ipadPartitionKeys entries).map some) := by
    intro x
    rw [hLkeys, hRkeys]
    unfold ipadPartitionKeys
    rw [List.map_append, List.mem_append]
    exact or_congr (hLmem x) (hRmem x)
  refine ⟨?_, ?_⟩
  · rw [ipadFilled_keys entries]
    exact hnd
  · intro x
    rw [ipadFilled_keys entries]
    exact ⟨(hmem x).trans (hunion x), (hcnt x).trans (if_congr (hunion x) rfl rfl)⟩

/-- The iPhone merge emits exactly one row per distinct partition key. -/
theorem iphone_output_length (entries : List RawEntry) :
    (merge_product_data_iphone entries).rows.length =
      ((iphonePartitionKeys entries).dedup).length := by
  by_cases he : entries.isEmpty = true
  · have hnil : entries = [] := List.isEmpty_iff.mp he
    subst hnil
    rfl
  · unfold merge_product_data_iphone
    rw [if_neg he]
    show ((iphoneFilled entries).map (fun r =>
        renameRow [("Name_US", "PRODUCT_NAME")]
          (selectRowCols ["SKU_US", "SKU_TW", "Price_US", "Price_TW", "Name_US"] r))).length =
      ((iphonePartitionKeys entries).dedup).length
    rw [List.length_map]
    obtain ⟨hnd, hmem⟩ := iphone_merged_keys entries
    have hnd2 : (((iphonePartitionKeys entries).dedup).map some).Nodup :=
      (List.nodup_dedup (iphonePartitionKeys entries)).map (Option.some_injective Cell)
    have hperm : List.Perm
        ((iphoneFilled entries).map (fun r => rowGet r "Standardized_Name"))
        (((iphonePartitionKeys entries).dedup).map some) := by
      rw [List.perm_ext_iff_of_nodup hnd hnd2]
      intro x
      rw [(hmem x).1]
      simp [List.mem_map, List.mem_dedup]
    have hl := hperm.length_eq
    rw [List.length_map, List.length_map] at hl
    exact hl

/-- The iPad merge emits exactly one row per distinct partition key. -/
theorem ipad_output_length (entries : List RawEntry) :
    (merge_product_data_ipad entries).rows.length =
      ((ipadPartitionKeys entries).dedup).length := by
  by_cases he : entries.isEmpty = true
  · have hnil : entries = [] := List.isEmpty_iff.mp he
    subst hnil
    rfl
  · unfold merge_product_data_ipad
    rw [if_neg he]
    show ((ipadFilled entries).map (fun r =>
        renameRow [("Name_US", "PRODUCT_NAME")]
          (selectRowCols ["SKU", "Price_US", "Price_TW", "Name_US"] r))).length =
      ((ipadPartitionKeys entries).dedup).length
    rw [List.length_map]
    obtain ⟨hnd, hmem⟩ := ipad_merged_keys entries
    have hnd2 : (((ipadPartitionKeys entries).dedup).map some).Nodup :=
      (List.nodup_dedup (ipadPartitionKeys entries)).map (Option.some_injective Cell)
    have hperm : List.Perm
        ((ipadFilled entries).map (fun r => rowGet r "SKU"))
        (((ipadPartitionKeys entries).dedup).map some) := by
      rw [List.perm_ext_iff_of_nodup hnd hnd2]
      intro x
      rw [(hmem x).1]
      simp [List.mem_map, List.mem_dedup]
    have hl := hperm.length_eq
    rw [List.length_map, List.length_map] at hl
    exact hl

/-- C1: for every input record list the cross-region merge produces exactly
one output row per distinct join key present in the union of the region
partitions — in the merged frame the key column (standardized name for the
iPhone pipeline, SKU for the iPad pipeline) holds each partition key
exactly once and no other key (count 1 for present keys, 0 for absent
ones), the output row count equals the number of distinct partition keys,
and the concrete example of SKUs {A,B} in US and {A,C} in TW merges to
exactly 3 rows keyed A, B, C. -/
theorem claim_C1 :
    (∀ (entries : List RawEntry) (c : Cell),
        ((iphoneFilled entries).map (fun r => rowGet r "Standardized_Name")).count (some c) =
          if c ∈ iphonePartitionKeys entries then 1 else 0) ∧
    (∀ (entries : List RawEntry) (c : Cell),
        ((ipadFilled entries).map (fun r => rowGet r "SKU")).count (some c) =
          if c ∈ ipadPartitionKeys entries then 1 else 0) ∧
    (∀ entries : List RawEntry,
        (merge_product_data_iphone entries).rows.length =
          ((iphonePartitionKeys entries).dedup).length) ∧
    (∀ entries : List RawEntry,
        (merge_product_data_ipad entries).rows.length =
          ((ipadPartitionKeys entries).dedup).length) ∧
    (merge_product_data_ipad
      [⟨"A", "iPad One", some 100, "", "P1"⟩, ⟨"B", "iPad Two", some 200, "", "P2"⟩,
       ⟨"A", "iPad One", some 3000, "tw", "P1"⟩,
       ⟨"C", "iPad Three", some 4000, "tw", "P3"⟩]).rows.length = 3 ∧
    ((ipadFilled
      [⟨"A", "iPad One", some 100, "", "P1"⟩, ⟨"B", "iPad Two", some 200, "", "P2"⟩,
       ⟨"A", "iPad One", some 3000, "tw", "P1"⟩,
       ⟨"C", "iPad Three", some 4000, "tw", "P3"⟩]).map (fun r => rowGet r "SKU")) =
      [some (Cell.str "A"), some (Cell.str "B"), some (Cell.str "C")] := by
  refine ⟨?_, ?_, iphone_output_length, ipad_output_length, by rfl, by rfl⟩
  · intro entries c
    rw [((iphone_merged_keys entries).2 (some c)).2]
    have hmm : some c ∈ (iphonePartitionKeys entries).map some ↔
        c ∈ iphonePartitionKeys entries :=
      List.mem_map_of_injective (Option.some_injective Cell)
    exact if_congr hmm rfl rfl
  · intro entries c
    rw [((ipad_merged_keys entries).2 (some c)).2]
    have hmm : some c ∈ (ipadPartitionKeys entries).map some ↔
        c ∈ ipadPartitionKeys entries :=
      List.mem_map_of_injective (Option.some_injective Cell)
    exact if_congr hmm rfl rfl

/-- C2 counterexample: the iPhone merge does NOT fill missing name fields —
for a record present only in the TW region, the merged row's
`PRODUCT_NAME` (the reference-region name `Name_US`) is NaN, not the empty
string, contradicting the claim that every merged row has a non-null name
field per region. -/
theorem claim_C2_counterexample :
    ((merge_product_data_iphone
        [⟨"S1", "iPhone 16 Pro 256GB Black Titanium", some 31900, "tw", "PN"⟩]).rows.map
      (fun r => rowGet r "PRODUCT_NAME")) = [some Cell.nan] := by rfl

/-- C2 amended: in every merged row a price missing in a region resolves to
the number 0 in both pipelines, but the string fill is per pipeline:
src/iphone.py fills the SKU columns with the empty string and leaves the
name columns unfilled, while src/ipad.py fills the name columns with the
empty string. -/
theorem claim_C2_amended :
    (∀ (entries : List RawEntry), ∀ r ∈ iphoneFilled entries,
      (∃ q : ℚ, rowGet r "Price_US" = some (Cell.num q)) ∧
      (∃ q : ℚ, rowGet r "Price_TW" = some (Cell.num q)) ∧
      (∃ s : String, rowGet r "SKU_US" = some (Cell.str s)) ∧
      (∃ s : String, rowGet r "SKU_TW" = some (Cell.str s))) ∧
    (∀ (entries : List RawEntry), ∀ r ∈ ipadFilled entries,
      (∃ q : ℚ, rowGet r "Price_US" = some (Cell.num q)) ∧
      (∃ q : ℚ, rowGet r "Price_TW" = some (Cell.num q)) ∧
      (∃ s : String, rowGet r "Name_US" = some (Cell.str s)) ∧
      (∃ s : String, rowGet r "Name_TW" = some (Cell.str s))) :=
  ⟨iphone_filled_vals, ipad_filled_vals⟩

/-- C2 amended, witnessed on concrete TW-only records: the merged iPhone
row gets a numeric US price and the merged iPad row a string US name. -/
theorem claim_C2_amended_witness :
    (∃ q : ℚ, rowGet (List.headI (iphoneFilled
        [⟨"S1", "iPhone 16 Pro 256GB Black Titanium", some 31900, "tw", "PN"⟩]))
      "Price_US" = some (Cell.num q)) ∧
    (∃ s : String, rowGet (List.headI (ipadFilled
        [⟨"S1", "iPad Pro 11-inch", some 31900, "tw", "PN"⟩])) "Name_US" =
      some (Cell.str s)) :=
  ⟨(claim_C2_amended.1
      [⟨"S1", "iPhone 16 Pro 256GB Black Titanium", some 31900, "tw", "PN"⟩]
      (List.headI (iphoneFilled
        [⟨"S1", "iPhone 16 Pro 256GB Black Titanium", some 31900, "tw", "PN"⟩]))
      (by decide)).1,
   (claim_C2_amended.2 [⟨"S1", "iPad Pro 11-inch", some 31900, "tw", "PN"⟩]
      (List.headI (ipadFilled [⟨"S1", "iPad Pro 11-inch", some 31900, "tw", "PN"⟩]))
      (by decide)).2.2.1⟩

end AppleScrape